import Mathlib

/-
Verification of the nitter-scraper pagination/retry state machine and page
parser, shallowly embedded from the Rust sources (src/lib.rs, src/parse.rs,
src/error.rs, src/tweet.rs).  Machine integers (u128 ids, u64 counters,
i64 timestamps) are modelled as Nat/Int; HTML documents are modelled as an
already-parsed DOM tree (the `scraper` crate's parsed document); network
responses and fetched pages are supplied by explicit oracles (lists).
-/

namespace NScrape

/-! ## Basic string helpers (models of Rust `str` operations) -/

/-- Is `pat` an infix of `s` (character lists)? -/
def listContainsSub (s pat : List Char) : Bool :=
  match s with
  | [] => pat.isEmpty
  | _ :: rest => pat.isPrefixOf s || listContainsSub rest pat

/-- Model of Rust `str::contains(pat)` (substring containment). -/
def substrContains (s pat : String) : Bool :=
  listContainsSub s.toList pat.toList

/-- Model of Rust `str::starts_with('/')`. -/
def startsWithSlash (s : String) : Bool :=
  match s.toList with
  | '/' :: _ => true
  | _ => false

/-- Model of Rust `str::trim` (leading and trailing whitespace removed). -/
def rustTrim (s : String) : String :=
  (((s.toList.dropWhile Char.isWhitespace).reverse.dropWhile Char.isWhitespace).reverse).asString

/-- Word character of the `regex` crate's `\w` class (ASCII fragment). -/
def isWordChar (c : Char) : Bool :=
  c.isAlphanum || c == '_'

/-- Digits to a natural number, most significant first. -/
def digitsToNat (l : List Char) : Nat :=
  l.foldl (fun acc c => 10 * acc + (c.toNat - 48)) 0

/-- Model of Rust `str::parse::<uN>` for an unsigned type of `bits` bits:
an optional leading plus sign, then one or more digits, value within
range. -/
def rustParseUnsigned (bits : Nat) (s : String) : Option Nat :=
  let ds := match s.toList with
    | '+' :: ds => ds
    | ds => ds
  if !ds.isEmpty && ds.all Char.isDigit && digitsToNat ds < 2 ^ bits then
    some (digitsToNat ds)
  else none

/-! ## Data model (src/tweet.rs, src/error.rs, src/lib.rs) -/

/-- src/tweet.rs: `Stats` (u64 counters modelled as Nat). -/
structure Stats where
  comment : Nat
  retweet : Nat
  quote : Nat
  heart : Nat
deriving DecidableEq, Repr

/-- src/tweet.rs: `User`. -/
structure User where
  full_name : String
  screen_name : String
deriving DecidableEq, Repr

/-- src/tweet.rs: `Tweet` (id is u128, modelled as Nat; created_at_ts is i64,
modelled as Int). -/
structure Tweet where
  id : Nat
  id_str : String
  created_at : String
  created_at_ts : Int
  user : User
  full_text : String
  images : List String
  video : Option String
  links : List String
  retweet : Bool
  reply : Bool
  quote : Bool
  pinned : Bool
  stats : Stats
deriving DecidableEq, Repr

/-- src/error.rs: `NitterError`. -/
inductive NitterError where
  | Parse (s : String)
  | Network (s : String)
  | ProtectedAccount
  | SuspendedAccount
  | NotFound
deriving DecidableEq, Repr

/-- src/lib.rs: `NitterCursor`. -/
inductive NitterCursor where
  | Initial
  | More (s : String)
  | End
deriving DecidableEq, Repr

/-- src/lib.rs: `ReturnedTweet` (result of `should_return_tweet`). -/
inductive ReturnedTweet where
  | Pinned
  | Normal
  | None
deriving DecidableEq, Repr

/-! ## Page fetcher retry loop (src/lib.rs `scrape_page`, lines 218-258)

One iteration of the Rust loop sends one HTTP request; we model the network
by the list of successive outcomes the server produces for this fetch.  The
loop returns the successful response body, or a `NitterError`; alongside we
record the backoff sleeps (in seconds) it performs, in order. -/

/-- One network outcome for a single HTTP send: a transport failure or a
response with a status code and body. -/
inductive FetchResult where
  | transport (e : String)
  | status (code : Nat) (body : String)
deriving DecidableEq, Repr

/-- `reqwest::StatusCode::is_success`: 2xx. -/
def isSuccessStatus (code : Nat) : Bool :=
  200 ≤ code && code ≤ 299

/-- src/lib.rs lines 218-258: the retry loop of `scrape_page`.  `i` is the
mutable retry counter (initially 0).  On 429 with `i < 10` the code
increments `i` and sleeps `min(300, 1 << i)` seconds, then retries; on 429
with `i ≥ 10` it returns `NitterError::Network`; 404 returns
`NitterError::NotFound`; any other non-2xx status returns
`NitterError::Network`; a transport failure returns `NitterError::Network`.
Returns the performed sleeps and the outcome. -/
def fetchLoop : List FetchResult → Nat → List Nat × Except NitterError String
  | [], _ => ([], .error (.Network "no response"))
  | r :: rest, i =>
    match r with
    | .transport e => ([], .error (.Network e))
    | .status code body =>
      if code = 429 then
        if i < 10 then
          let sleep_s := min 300 (2 ^ (i + 1))
          let out := fetchLoop rest (i + 1)
          (sleep_s :: out.1, out.2)
        else
          ([], .error (.Network ("received status code " ++ toString code)))
      else if code = 404 then
        ([], .error .NotFound)
      else if !isSuccessStatus code then
        ([], .error (.Network ("received status code " ++ toString code)))
      else
        ([], .ok body)

/-- A fetch fixture: `n` consecutive 429 responses followed by one 200. -/
def rateLimitedFixture (n : Nat) (body : String) : List FetchResult :=
  List.replicate n (.status 429 "") ++ [.status 200 body]

/-- C1 counterexample: the claim says a **tenth** consecutive 429 yields a
Network error instead of retrying again.  On the fixture with ten
consecutive 429s followed by a success, the code in fact performs a tenth
backoff sleep (capped at 300 seconds) and retries, returning the page
content - not a Network error. -/
theorem c1_counterexample :
    fetchLoop (rateLimitedFixture 10 "page") 0 =
      ([2, 4, 8, 16, 32, 64, 128, 256, 300, 300], .ok "page") := by
  rfl

/-- C1 (amended): nine consecutive 429s then a success cause exactly nine
backoff sleeps of 2, 4, 8, 16, 32, 64, 128, 256, 300 (capped) seconds, in
that order, before the page content is returned; a tenth consecutive 429
causes a tenth sleep of 300 seconds and one more retry; an eleventh
consecutive 429 yields a Network error carrying the status code. -/
theorem c1_retry_policy :
    fetchLoop (rateLimitedFixture 9 "page") 0 =
      ([2, 4, 8, 16, 32, 64, 128, 256, 300], .ok "page") ∧
    fetchLoop (rateLimitedFixture 10 "page") 0 =
      ([2, 4, 8, 16, 32, 64, 128, 256, 300, 300], .ok "page") ∧
    fetchLoop (List.replicate 11 (.status 429 "")) 0 =
      ([2, 4, 8, 16, 32, 64, 128, 256, 300, 300],
        .error (.Network "received status code 429")) := by
  refine ⟨by rfl, by rfl, by rfl⟩

/-! ## Stream engine (src/lib.rs `NitterScraper::search`, lines 109-291)

The caller-supplied configuration fields of `NitterScraper` (src/lib.rs
lines 19-42); `client`, `instance` and `query` only shape the request URL
and are irrelevant to the stream policy. -/

structure Config where
  limit : Option Nat
  reorder_pinned : Bool
  skip_retweets : Bool
  min_id : Option Nat
deriving DecidableEq, Repr

/-- The result of one fetch-and-parse of a page, i.e. of the body of
`scrape_page` up to `parse_nitter_html` (src/lib.rs lines 216-263): either a
`NitterError` (network, account state, or parse failure) or the page's
tweets together with the next cursor parsed from it.  A run of the stream is
driven by a finite oracle listing successive page results. -/
def PageResult : Type :=
  Except NitterError (List Tweet × NitterCursor)

/-- src/lib.rs lines 197-205: the tail of `should_return_tweet` after the
pinned check (minimum-id cutoff, else return the next tweet). -/
def shouldReturnTweetMinId (tweet : Tweet) (min_id : Option Nat) : ReturnedTweet :=
  match min_id with
  | some m => if tweet.id < m then .None else .Normal
  | none => .Normal

/-- src/lib.rs lines 182-206: `should_return_tweet`.  If pinned reordering
is enabled and the stashed pinned tweet's timestamp is strictly later than
the candidate tweet's, return the pinned tweet; else apply the minimum-id
cutoff; else return the candidate. -/
def shouldReturnTweet (tweet : Tweet) (pinned : Option Tweet) (min_id : Option Nat)
    (reorder_pinned : Bool) : ReturnedTweet :=
  if reorder_pinned then
    match pinned with
    | some p =>
      if p.created_at_ts > tweet.created_at_ts then .Pinned
      else shouldReturnTweetMinId tweet min_id
    | none => shouldReturnTweetMinId tweet min_id
  else shouldReturnTweetMinId tweet min_id

/-- src/lib.rs lines 277-285: the stash update of `scrape_page` when
reordering — pop the last pinned tweet of the page; stash it unless a
configured minimum id excludes it (in which case the previous stash is
kept). -/
def extractPinned (min_id : Option Nat) (pinned : Option Tweet)
    (pinnedTweets : List Tweet) : Option Tweet :=
  match pinnedTweets.getLast? with
  | some t =>
    match min_id with
    | some m => if t.id ≥ m then some t else pinned
    | none => some t
  | none => pinned

/-- src/lib.rs lines 208-291: `scrape_page` after the HTTP exchange.  Takes
the current cursor, the current pinned stash and the fetched page result;
returns the new cursor, the new pinned stash, and either an error or the
tweets to enqueue.  On an error nothing is modified; on success the cursor
is updated to the parsed one, retweets are optionally dropped, and (when
reordering) the last pinned tweet of the page is extracted into the stash
unless a configured minimum id excludes it (tweets flagged pinned are never
enqueued in that mode). -/
def scrapePage (cfg : Config) (cursor : NitterCursor) (pinned : Option Tweet)
    (page : PageResult) :
    NitterCursor × Option Tweet × Except NitterError (List Tweet) :=
  match cursor with
  | .End => (cursor, pinned, .ok [])
  | _ =>
    match page with
    | .error e => (cursor, pinned, .error e)
    | .ok (tweets, newCursor) =>
      let tweets := if cfg.skip_retweets then tweets.filter (fun t => !t.retweet) else tweets
      if cfg.reorder_pinned then
        (newCursor, extractPinned cfg.min_id pinned (tweets.filter (fun t => t.pinned)),
          .ok (tweets.filter (fun t => !t.pinned)))
      else (newCursor, pinned, .ok tweets)

/-- Is the error one of the terminal account states the stream swallows
(src/lib.rs lines 159-165)? -/
def isAccountError : NitterError → Bool
  | .ProtectedAccount => true
  | .SuspendedAccount => true
  | .NotFound => true
  | _ => false

/-- src/lib.rs line 121-125: the limit check at the top of each unfold step. -/
def limitReached : Option Nat → Nat → Bool
  | some l, c => c ≥ l
  | none, _ => false

/-- Weight of the pinned stash, for the termination measure of `runAux`. -/
def pinWeight : Option Tweet → Nat
  | some _ => 1
  | none => 0

/-- src/lib.rs lines 114-179: the `futures_util::stream::unfold` body of
`search`, iterated to the end of the stream.  The state fields of
`NitterSearchState` (errored, count, tweets queue, cursor, pinned stash) are
passed explicitly; `pages` is the oracle of successive fetch-and-parse
results.  Each produced element is one stream item.  When the oracle is
exhausted while a fetch is required the (finite) trace is truncated.

Two notes on the correspondence with the source's `loop`: the scrape at
lines 154-158 is only reachable with an empty queue (a non-empty queue
always returns or breaks at lines 131-148), so `tweets.extend(ts)` appends
to an empty queue here; and re-entering the top of this recursion after a
successful scrape re-evaluates the errored/limit guards on values the
scrape cannot have changed, which is the source's in-loop `continue`. -/
def runAux (cfg : Config) (errored : Bool) (count : Nat) (tweets : List Tweet)
    (cursor : NitterCursor) (pinned : Option Tweet) (pages : List PageResult) :
    List (Except NitterError Tweet) :=
  -- Stop if previously errored (line 116)
  if errored then []
  -- Stop if limit reached (lines 120-125)
  else if limitReached cfg.limit count then []
  else
    match tweets with
    | t :: rest =>
      -- Return tweet if available (lines 130-148)
      match shouldReturnTweet t pinned cfg.min_id cfg.reorder_pinned with
      | .Normal => .ok t :: runAux cfg errored (count + 1) rest cursor pinned pages
      | .Pinned =>
        match pinned with
        | some p => .ok p :: runAux cfg errored (count + 1) (t :: rest) cursor none pages
        | none => []  -- mirrors pinned.take().unwrap(): unreachable by should_return_tweet
      | .None =>
        -- minimum id reached: break; return pinned tweet if needed (lines 173-178)
        match pinned with
        | some p => .ok p :: runAux cfg errored count (t :: rest) cursor none pages
        | none => []
    | [] =>
      match cursor with
      | .End =>
        -- cursor exhausted: break; return pinned tweet if needed (lines 150-152, 173-178)
        match pinned with
        | some p => .ok p :: runAux cfg errored count [] cursor none pages
        | none => []
      | _ =>
        -- Scrape nitter (lines 154-170)
        match pages with
        | [] => []
        | pg :: ps =>
          match scrapePage cfg cursor pinned pg with
          | (cursor', pinned', .ok ts) => runAux cfg errored count ts cursor' pinned' ps
          | (cursor', pinned', .error e) =>
            if isAccountError e then []
            else .error e :: runAux cfg true count [] cursor' pinned' ps
termination_by (pages.length, 2 * tweets.length + pinWeight pinned)
decreasing_by
  all_goals first
    | exact Prod.Lex.right _ (by simp [pinWeight]; try omega)
    | exact Prod.Lex.left _ _ (by simp)

/-- src/lib.rs lines 110-113: `search` resets the state to its `Default`
(empty queue, `Initial` cursor, zero count, not errored, no pinned stash)
and then runs the unfold. -/
def searchRun (cfg : Config) (pages : List PageResult) : List (Except NitterError Tweet) :=
  runAux cfg false 0 [] .Initial none pages

/-! ## Stream-level fixtures and helper lemmas -/

/-- A tweet fixture with the given id, timestamp and flags; the remaining
fields are inert for the stream engine. -/
def mkTweet (id : Nat) (ts : Int) (pinnedFlag retweetFlag : Bool) : Tweet :=
  { id := id, id_str := toString id, created_at := "", created_at_ts := ts,
    user := { full_name := "user", screen_name := "user" }, full_text := "",
    images := [], video := none, links := [], retweet := retweetFlag,
    reply := false, quote := false, pinned := pinnedFlag,
    stats := ⟨0, 0, 0, 0⟩ }

/-- `should_return_tweet` with an empty pinned stash reduces to the
minimum-id check, whatever the reordering flag. -/
theorem shouldReturnTweet_none (t : Tweet) (min_id : Option Nat) (r : Bool) :
    shouldReturnTweet t none min_id r = shouldReturnTweetMinId t min_id := by
  cases r <;> rfl

/-- If `should_return_tweet` returns `Normal` and a minimum id is
configured, the candidate passes the floor. -/
theorem shouldReturnTweet_normal_min (t : Tweet) (p : Option Tweet) (min_id : Option Nat)
    (r : Bool) (M : Nat) (h : shouldReturnTweet t p min_id r = .Normal)
    (hm : min_id = some M) : M ≤ t.id := by
  subst hm
  have hmin : shouldReturnTweetMinId t (some M) = .Normal → M ≤ t.id := by
    unfold shouldReturnTweetMinId
    intro h
    by_cases hlt : t.id < M
    · simp [hlt] at h
    · omega
  unfold shouldReturnTweet at h
  cases r <;> simp at h
  · exact hmin h
  · cases p with
    | none => exact hmin h
    | some q =>
      by_cases hts : q.created_at_ts > t.created_at_ts <;> simp [hts] at h
      exact hmin h

/-- If `should_return_tweet` returns `None`, so does the bare minimum-id
check. -/
theorem shouldReturnTweet_none_inv (t : Tweet) (p : Option Tweet) (min_id : Option Nat)
    (r : Bool) (h : shouldReturnTweet t p min_id r = .None) :
    shouldReturnTweetMinId t min_id = .None := by
  unfold shouldReturnTweet at h
  cases r <;> simp at h
  · exact h
  · cases p with
    | none => exact h
    | some q =>
      by_cases hts : q.created_at_ts > t.created_at_ts <;> simp [hts] at h
      exact h

/-! ## C2: pinned-reordering placement -/

/-- The configuration of the pinned-reordering scenario: reordering on, no
limit, no retweet skipping, no minimum id. -/
def c2cfg : Config := ⟨none, true, false, none⟩

theorem c2cfg_limit : c2cfg.limit = none := rfl

theorem c2cfg_reorder : c2cfg.reorder_pinned = true := rfl

theorem c2cfg_skip : c2cfg.skip_retweets = false := rfl

theorem c2cfg_min : c2cfg.min_id = none := rfl

/-- With no pinned stash, the drain of the queue under `c2cfg` emits every
queued tweet in order. -/
theorem c2_drain_nopin : ∀ (ts : List Tweet) (count : Nat),
    runAux c2cfg false count ts .End none [] = ts.map .ok := by
  intro ts
  induction ts with
  | nil => intro count; simp [runAux, limitReached, c2cfg_limit]
  | cons t rest ih =>
    intro count
    rw [runAux]
    simp [limitReached, c2cfg_limit, c2cfg_reorder, c2cfg_min, shouldReturnTweet,
      shouldReturnTweetMinId, ih]

/-- With a pinned stash `p`, the drain of the queue under `c2cfg` emits the
queued tweets whose timestamp is not earlier than `p`'s, then `p`, then the
remaining queued tweets. -/
theorem c2_drain (p : Tweet) : ∀ (ts : List Tweet) (count : Nat),
    runAux c2cfg false count ts .End (some p) [] =
      (ts.takeWhile fun t => decide (p.created_at_ts ≤ t.created_at_ts)).map .ok
        ++ .ok p :: ((ts.dropWhile fun t => decide (p.created_at_ts ≤ t.created_at_ts)).map .ok) := by
  intro ts
  induction ts with
  | nil =>
    intro count
    rw [runAux]
    simp [limitReached, c2cfg_limit, c2_drain_nopin]
  | cons t rest ih =>
    intro count
    rw [runAux]
    by_cases hts : p.created_at_ts > t.created_at_ts
    · have hpred : (fun t => decide (p.created_at_ts ≤ t.created_at_ts)) t = false := by
        simp; omega
      simp [limitReached, c2cfg_limit, c2cfg_reorder, shouldReturnTweet, hts,
        c2_drain_nopin, List.takeWhile_cons, List.dropWhile_cons, hpred]
    · have hpred : (fun t => decide (p.created_at_ts ≤ t.created_at_ts)) t = true := by
        simp; omega
      simp [limitReached, c2cfg_limit, c2cfg_reorder, c2cfg_min, shouldReturnTweet, hts,
        shouldReturnTweetMinId, List.takeWhile_cons, List.dropWhile_cons, hpred, ih]

/-- Fixture post at timestamp 10 (not pinned). -/
def postTen : Tweet := mkTweet 1 10 false false

/-- Fixture post at timestamp 5 (not pinned). -/
def postFive : Tweet := mkTweet 2 5 false false

/-- Fixture pinned post at timestamp 7. -/
def pinnedSeven : Tweet := mkTweet 3 7 true false

/-- C2 counterexample: the claim places the reordered pinned post "strictly
after the first post whose timestamp is earlier than T_p".  On a page whose
first post is pinned at T_p = 7 followed by posts at timestamps 10 > 5 with
7 < 10, the first (and only) emitted post with timestamp earlier than 7 is
`postFive`, emitted at index 2, while the pinned post is emitted at index 1:
strictly BEFORE it, not after.  The final conjunct is the negation of the
claimed placement at this input. -/
theorem c2_counterexample :
    searchRun c2cfg [.ok ([pinnedSeven, postTen, postFive], .End)] =
      [.ok postTen, .ok pinnedSeven, .ok postFive] ∧
    postFive.created_at_ts < pinnedSeven.created_at_ts ∧
    pinnedSeven.created_at_ts ≤ postTen.created_at_ts ∧
    ¬ (∃ i j : Nat,
        (searchRun c2cfg [.ok ([pinnedSeven, postTen, postFive], .End)])[j]? =
          some (.ok postFive) ∧
        (searchRun c2cfg [.ok ([pinnedSeven, postTen, postFive], .End)])[i]? =
          some (.ok pinnedSeven) ∧
        j < i) := by
  have hrun : searchRun c2cfg [.ok ([pinnedSeven, postTen, postFive], .End)] =
      [.ok postTen, .ok pinnedSeven, .ok postFive] := by
    rw [searchRun, runAux]
    simp [limitReached, c2cfg_limit, c2cfg_reorder, c2cfg_skip, c2cfg_min, scrapePage,
      extractPinned, pinnedSeven, postTen, postFive, mkTweet]
    rw [c2_drain]
    simp [pinnedSeven, postTen, postFive, mkTweet, List.takeWhile_cons, List.dropWhile_cons]
    all_goals simp
  refine ⟨hrun, by simp [postFive, pinnedSeven, mkTweet],
    by simp [postTen, pinnedSeven, mkTweet], ?_⟩
  rintro ⟨i, j, hj, hi, hji⟩
  rw [hrun] at hj hi
  have hj2 : j = 2 := by
    rcases j with _ | _ | _ | j <;>
      simp [postTen, postFive, pinnedSeven, mkTweet] at hj <;> rfl
  have hi1 : i = 1 := by
    rcases i with _ | _ | _ | i <;>
      simp [postTen, postFive, pinnedSeven, mkTweet] at hi <;> rfl
  omega

/-- C2 (amended): with pinned reordering enabled (no limit, no retweet
skipping, no minimum id), a page whose first post is pinned and whose
remaining posts are unpinned is emitted as: the leading posts whose
timestamps are not strictly earlier than the pinned post's, then the pinned
post, then the remaining posts — i.e. the pinned post is emitted
immediately BEFORE the first post whose timestamp is strictly earlier than
its own, and at the very end if no post's timestamp is earlier. -/
theorem c2_pinned_placement (p : Tweet) (posts : List Tweet)
    (hp : p.pinned = true) (hposts : ∀ t ∈ posts, t.pinned = false) :
    searchRun c2cfg [.ok (p :: posts, .End)] =
      (posts.takeWhile fun t => decide (p.created_at_ts ≤ t.created_at_ts)).map .ok
        ++ .ok p ::
          ((posts.dropWhile fun t => decide (p.created_at_ts ≤ t.created_at_ts)).map .ok) := by
  have hfilter : posts.filter (fun t => t.pinned) = [] := by
    rw [List.filter_eq_nil_iff]
    intro a ha
    simp [hposts a ha]
  have hfilter2 : posts.filter (fun t => !t.pinned) = posts := by
    rw [List.filter_eq_self]
    intro a ha
    simp [hposts a ha]
  rw [searchRun, runAux]
  · simp [limitReached, c2cfg_limit, c2cfg_reorder, c2cfg_skip, c2cfg_min, scrapePage,
      extractPinned, hp, hfilter, hfilter2]
    rw [c2_drain]
  · simp

/-- C2 witness: the amended placement theorem applied to the concrete
fixture page (pinned at 7, then posts at 10 and 5). -/
theorem c2_pinned_placement_witness :
    searchRun c2cfg [.ok ([pinnedSeven, postTen, postFive], .End)] =
      ([postTen, postFive].takeWhile fun t =>
          decide (pinnedSeven.created_at_ts ≤ t.created_at_ts)).map .ok
        ++ .ok pinnedSeven ::
          (([postTen, postFive].dropWhile fun t =>
              decide (pinnedSeven.created_at_ts ≤ t.created_at_ts)).map .ok) :=
  c2_pinned_placement pinnedSeven [postTen, postFive] (by rfl)
    (by intro t ht; simp [postTen, postFive, mkTweet] at ht ⊢; rcases ht with h | h <;> simp [h])

/-! ## C3: no final status distinct from the item stream -/

/-- C3: at the engine's public interface (the item sequence produced by
`search`), a run against a protected, suspended or not-found account and a
run against an ordinary page with no posts and no continuation token all
produce the identical empty sequence, for every configuration: the code
exposes no final status by which they could be distinguished.  This
evaluates the code at the failing input of the claim. -/
theorem c3_indistinguishable (cfg : Config) :
    searchRun cfg [.error .ProtectedAccount] = [] ∧
    searchRun cfg [.error .SuspendedAccount] = [] ∧
    searchRun cfg [.error .NotFound] = [] ∧
    searchRun cfg [.ok ([], .End)] = [] := by
  obtain ⟨lim, ro, sk, mi⟩ := cfg
  rcases lim with _ | l
  · refine ⟨?_, ?_, ?_, ?_⟩ <;>
      simp [searchRun, runAux, limitReached, scrapePage, extractPinned, isAccountError]
  · rcases l with _ | l
    · refine ⟨?_, ?_, ?_, ?_⟩ <;> simp [searchRun, runAux, limitReached]
    · refine ⟨?_, ?_, ?_, ?_⟩ <;>
        simp [searchRun, runAux, limitReached, scrapePage, extractPinned, isAccountError]

/-! ## Clean step equations for `runAux` -/

/-- Once the errored flag is set, the unfold immediately ends the stream
(src/lib.rs lines 116-118). -/
theorem runAux_true (cfg : Config) (count : Nat) (tweets : List Tweet)
    (cursor : NitterCursor) (pinned : Option Tweet) (pages : List PageResult) :
    runAux cfg true count tweets cursor pinned pages = [] := by
  cases tweets with
  | cons t rest =>
    cases pinned with
    | some p => rw [runAux.eq_1] <;> simp
    | none => rw [runAux.eq_2] <;> simp
  | nil =>
    cases cursor with
    | End =>
      cases pinned with
      | some p => rw [runAux.eq_3] <;> simp
      | none => rw [runAux.eq_4] <;> simp
    | Initial =>
      cases pages with
      | nil => rw [runAux.eq_5] <;> simp
      | cons pg ps => rw [runAux.eq_6] <;> simp
    | More s =>
      cases pages with
      | nil => rw [runAux.eq_5] <;> simp
      | cons pg ps => rw [runAux.eq_6] <;> simp

/-- Once the limit is reached, the unfold ends the stream (lines 120-125). -/
theorem runAux_limit (cfg : Config) (count : Nat) (tweets : List Tweet)
    (cursor : NitterCursor) (pinned : Option Tweet) (pages : List PageResult)
    (h : limitReached cfg.limit count = true) :
    runAux cfg false count tweets cursor pinned pages = [] := by
  cases tweets with
  | cons t rest =>
    cases pinned with
    | some p => rw [runAux.eq_1] <;> simp [h]
    | none => rw [runAux.eq_2] <;> simp [h]
  | nil =>
    cases cursor with
    | End =>
      cases pinned with
      | some p => rw [runAux.eq_3] <;> simp [h]
      | none => rw [runAux.eq_4] <;> simp [h]
    | Initial =>
      cases pages with
      | nil => rw [runAux.eq_5] <;> simp [h]
      | cons pg ps => rw [runAux.eq_6] <;> simp [h]
    | More s =>
      cases pages with
      | nil => rw [runAux.eq_5] <;> simp [h]
      | cons pg ps => rw [runAux.eq_6] <;> simp [h]

/-- Step equation: the queue head is returned (lines 138-141). -/
theorem runAux_normal (cfg : Config) (count : Nat) (t : Tweet) (rest : List Tweet)
    (cursor : NitterCursor) (pinned : Option Tweet) (pages : List PageResult)
    (h : limitReached cfg.limit count = false)
    (hd : shouldReturnTweet t pinned cfg.min_id cfg.reorder_pinned = .Normal) :
    runAux cfg false count (t :: rest) cursor pinned pages =
      .ok t :: runAux cfg false (count + 1) rest cursor pinned pages := by
  cases pinned with
  | some p => rw [runAux.eq_1] <;> simp [h, hd]
  | none => rw [runAux.eq_2] <;> simp [h, hd]

/-- Step equation: the stashed pinned tweet is returned (lines 142-145). -/
theorem runAux_pinned (cfg : Config) (count : Nat) (t : Tweet) (rest : List Tweet)
    (cursor : NitterCursor) (p : Tweet) (pages : List PageResult)
    (h : limitReached cfg.limit count = false)
    (hd : shouldReturnTweet t (some p) cfg.min_id cfg.reorder_pinned = .Pinned) :
    runAux cfg false count (t :: rest) cursor (some p) pages =
      .ok p :: runAux cfg false (count + 1) (t :: rest) cursor none pages := by
  rw [runAux.eq_1] <;> simp [h, hd]

/-- Step equation: minimum-id cutoff with a stashed pinned tweet - the loop
breaks and the pinned tweet is yielded (lines 146, 173-176). -/
theorem runAux_break_some (cfg : Config) (count : Nat) (t : Tweet) (rest : List Tweet)
    (cursor : NitterCursor) (p : Tweet) (pages : List PageResult)
    (h : limitReached cfg.limit count = false)
    (hd : shouldReturnTweet t (some p) cfg.min_id cfg.reorder_pinned = .None) :
    runAux cfg false count (t :: rest) cursor (some p) pages =
      .ok p :: runAux cfg false count (t :: rest) cursor none pages := by
  rw [runAux.eq_1] <;> simp [h, hd]

/-- Step equation: minimum-id cutoff with no stash ends the stream
(lines 146, 178). -/
theorem runAux_break_none (cfg : Config) (count : Nat) (t : Tweet) (rest : List Tweet)
    (cursor : NitterCursor) (pages : List PageResult)
    (h : limitReached cfg.limit count = false)
    (hd : shouldReturnTweet t none cfg.min_id cfg.reorder_pinned = .None) :
    runAux cfg false count (t :: rest) cursor none pages = [] := by
  rw [runAux.eq_2] <;> simp [h, hd]

/-- Step equation: queue empty, cursor exhausted, stashed pinned tweet
yielded (lines 150-152, 173-176). -/
theorem runAux_end_some (cfg : Config) (count : Nat) (p : Tweet) (pages : List PageResult)
    (h : limitReached cfg.limit count = false) :
    runAux cfg false count [] .End (some p) pages =
      .ok p :: runAux cfg false count [] .End none pages := by
  rw [runAux.eq_3] <;> simp [h]

/-- Step equation: queue empty, cursor exhausted, no stash: stream ends
(lines 150-152, 178). -/
theorem runAux_end_none (cfg : Config) (count : Nat) (pages : List PageResult)
    (h : limitReached cfg.limit count = false) :
    runAux cfg false count [] .End none pages = [] := by
  rw [runAux.eq_4] <;> simp [h]

/-- Step equation: oracle exhausted while a fetch is needed: the finite
trace is truncated. -/
theorem runAux_fetch_nil (cfg : Config) (count : Nat) (cursor : NitterCursor)
    (pinned : Option Tweet) (h : limitReached cfg.limit count = false)
    (hcur : cursor ≠ .End) :
    runAux cfg false count [] cursor pinned [] = [] := by
  rw [runAux.eq_5]
  · simp [h]
  · exact fun hE => hcur hE

/-- Step equation: a page is scraped successfully and its tweets enqueued
(lines 155-158). -/
theorem runAux_scrape_ok (cfg : Config) (count : Nat) (cursor : NitterCursor)
    (pinned : Option Tweet) (pg : PageResult) (ps : List PageResult)
    (cursor' : NitterCursor) (pinned' : Option Tweet) (ts : List Tweet)
    (h : limitReached cfg.limit count = false) (hcur : cursor ≠ .End)
    (hs : scrapePage cfg cursor pinned pg = (cursor', pinned', .ok ts)) :
    runAux cfg false count [] cursor pinned (pg :: ps) =
      runAux cfg false count ts cursor' pinned' ps := by
  rw [runAux.eq_6]
  · simp [h, hs]
  · exact fun hE => hcur hE

/-- Step equation: the fetch/parse step reports a terminal account state:
the stream ends with no item (lines 159-165). -/
theorem runAux_scrape_accerr (cfg : Config) (count : Nat) (cursor : NitterCursor)
    (pinned : Option Tweet) (pg : PageResult) (ps : List PageResult)
    (cursor' : NitterCursor) (pinned' : Option Tweet) (e : NitterError)
    (h : limitReached cfg.limit count = false) (hcur : cursor ≠ .End)
    (hs : scrapePage cfg cursor pinned pg = (cursor', pinned', .error e))
    (hacc : isAccountError e = true) :
    runAux cfg false count [] cursor pinned (pg :: ps) = [] := by
  rw [runAux.eq_6]
  · simp [h, hs, hacc]
  · exact fun hE => hcur hE

/-- Step equation: the fetch/parse step reports any other error: it is
yielded as the single final item, after which the errored flag stops the
stream (lines 166-169, 116-118). -/
theorem runAux_scrape_err (cfg : Config) (count : Nat) (cursor : NitterCursor)
    (pinned : Option Tweet) (pg : PageResult) (ps : List PageResult)
    (cursor' : NitterCursor) (pinned' : Option Tweet) (e : NitterError)
    (h : limitReached cfg.limit count = false) (hcur : cursor ≠ .End)
    (hs : scrapePage cfg cursor pinned pg = (cursor', pinned', .error e))
    (hacc : isAccountError e = false) :
    runAux cfg false count [] cursor pinned (pg :: ps) = [.error e] := by
  rw [runAux.eq_6]
  · simp [h, hs, hacc, runAux_true]
  · exact fun hE => hcur hE

/-- Step equation: the unreachable `unwrap` branch (decision `Pinned` with
an empty stash) produces nothing. -/
theorem runAux_pinned_none (cfg : Config) (count : Nat) (t : Tweet) (rest : List Tweet)
    (cursor : NitterCursor) (pages : List PageResult)
    (h : limitReached cfg.limit count = false)
    (hd : shouldReturnTweet t none cfg.min_id cfg.reorder_pinned = .Pinned) :
    runAux cfg false count (t :: rest) cursor none pages = [] := by
  rw [runAux.eq_2] <;> simp [h, hd]

/-! ## C4: stream-level error policy -/

/-- Any error item the stream produces is a non-account error and is the
final element of the produced sequence. -/
theorem runAux_error_last (cfg : Config) : ∀ (errored : Bool) (count : Nat)
    (tweets : List Tweet) (cursor : NitterCursor) (pinned : Option Tweet)
    (pages : List PageResult) (i : Nat) (e : NitterError),
    (runAux cfg errored count tweets cursor pinned pages)[i]? = some (.error e) →
    isAccountError e = false ∧
      i + 1 = (runAux cfg errored count tweets cursor pinned pages).length := by
  intro errored count tweets cursor pinned pages
  induction errored, count, tweets, cursor, pinned, pages using runAux.induct cfg with
  | case1 count tweets cursor pinned pages =>
    intro i e h
    rw [runAux_true] at h
    simp at h
  | case2 errored count tweets cursor pinned pages h1 h2 =>
    simp only [Bool.not_eq_true, Bool.not_eq_false] at h1 h2
    subst h1
    intro i e h
    rw [runAux_limit _ _ _ _ _ _ h2] at h
    simp at h
  | case3 errored count cursor pinned pages h1 h2 t rest hd ih =>
    simp only [Bool.not_eq_true, Bool.not_eq_false] at h1 h2
    subst h1
    intro i e h
    rw [runAux_normal _ _ _ _ _ _ _ h2 hd] at h ⊢
    rcases i with _ | i
    · simp at h
    · simp only [List.getElem?_cons_succ] at h
      obtain ⟨ha, hl⟩ := ih i e h
      refine ⟨ha, ?_⟩
      simp [List.length_cons]
      omega
  | case4 errored count cursor pages h1 h2 t rest p hd ih =>
    simp only [Bool.not_eq_true, Bool.not_eq_false] at h1 h2
    subst h1
    intro i e h
    rw [runAux_pinned _ _ _ _ _ _ _ h2 hd] at h ⊢
    rcases i with _ | i
    · simp at h
    · simp only [List.getElem?_cons_succ] at h
      obtain ⟨ha, hl⟩ := ih i e h
      refine ⟨ha, ?_⟩
      simp [List.length_cons]
      omega
  | case5 errored count cursor pages h1 h2 t rest hd =>
    simp only [Bool.not_eq_true, Bool.not_eq_false] at h1 h2
    subst h1
    intro i e h
    rw [runAux_pinned_none _ _ _ _ _ _ h2 hd] at h
    simp at h
  | case6 errored count cursor pages h1 h2 t rest p hd ih =>
    simp only [Bool.not_eq_true, Bool.not_eq_false] at h1 h2
    subst h1
    intro i e h
    rw [runAux_break_some _ _ _ _ _ _ _ h2 hd] at h ⊢
    rcases i with _ | i
    · simp at h
    · simp only [List.getElem?_cons_succ] at h
      obtain ⟨ha, hl⟩ := ih i e h
      refine ⟨ha, ?_⟩
      simp [List.length_cons]
      omega
  | case7 errored count cursor pages h1 h2 t rest hd =>
    simp only [Bool.not_eq_true, Bool.not_eq_false] at h1 h2
    subst h1
    intro i e h
    rw [runAux_break_none _ _ _ _ _ _ h2 hd] at h
    simp at h
  | case8 errored count pages h1 h2 p ih =>
    simp only [Bool.not_eq_true, Bool.not_eq_false] at h1 h2
    subst h1
    intro i e h
    rw [runAux_end_some _ _ _ _ h2] at h ⊢
    rcases i with _ | i
    · simp at h
    · simp only [List.getElem?_cons_succ] at h
      obtain ⟨ha, hl⟩ := ih i e h
      refine ⟨ha, ?_⟩
      simp [List.length_cons]
      omega
  | case9 errored count pages h1 h2 =>
    simp only [Bool.not_eq_true, Bool.not_eq_false] at h1 h2
    subst h1
    intro i e h
    rw [runAux_end_none _ _ _ h2] at h
    simp at h
  | case10 errored count cursor pinned h1 h2 hcur =>
    simp only [Bool.not_eq_true, Bool.not_eq_false] at h1 h2
    subst h1
    intro i e h
    rw [runAux_fetch_nil _ _ _ _ h2 (fun hE => hcur hE)] at h
    simp at h
  | case11 errored count cursor pinned h1 h2 pg ps cursor' pinned' ts hscrape hcur ih =>
    simp only [Bool.not_eq_true, Bool.not_eq_false] at h1 h2
    subst h1
    intro i e h
    rw [runAux_scrape_ok _ _ _ _ _ _ _ _ _ h2 (fun hE => hcur hE) hscrape] at h ⊢
    exact ih i e h
  | case12 errored count cursor pinned h1 h2 pg ps cursor' pinned' e0 hscrape hacc hcur =>
    simp only [Bool.not_eq_true, Bool.not_eq_false] at h1 h2
    subst h1
    intro i e h
    rw [runAux_scrape_accerr _ _ _ _ _ _ _ _ _ h2 (fun hE => hcur hE) hscrape hacc] at h
    simp at h
  | case13 errored count cursor pinned h1 h2 pg ps cursor' pinned' e0 hscrape hacc hcur ih =>
    simp only [Bool.not_eq_true, Bool.not_eq_false] at h1 h2 hacc
    subst h1
    intro i e h
    rw [runAux_scrape_err _ _ _ _ _ _ _ _ _ h2 (fun hE => hcur hE) hscrape hacc] at h ⊢
    rcases i with _ | i
    · simp at h
      subst h
      exact ⟨hacc, rfl⟩
    · simp at h

/-- After an error item has been produced, the remainder of the oracle is
never consulted: extending the oracle does not change the run. -/
theorem runAux_append_of_error (cfg : Config) (junk : List PageResult) :
    ∀ (errored : Bool) (count : Nat) (tweets : List Tweet) (cursor : NitterCursor)
    (pinned : Option Tweet) (pages : List PageResult),
    (∃ e, .error e ∈ runAux cfg errored count tweets cursor pinned pages) →
    runAux cfg errored count tweets cursor pinned (pages ++ junk) =
      runAux cfg errored count tweets cursor pinned pages := by
  intro errored count tweets cursor pinned pages
  induction errored, count, tweets, cursor, pinned, pages using runAux.induct cfg with
  | case1 count tweets cursor pinned pages =>
    intro _
    rw [runAux_true, runAux_true]
  | case2 errored count tweets cursor pinned pages h1 h2 =>
    simp only [Bool.not_eq_true, Bool.not_eq_false] at h1 h2
    subst h1
    intro _
    rw [runAux_limit _ _ _ _ _ _ h2, runAux_limit _ _ _ _ _ _ h2]
  | case3 errored count cursor pinned pages h1 h2 t rest hd ih =>
    simp only [Bool.not_eq_true, Bool.not_eq_false] at h1 h2
    subst h1
    rintro ⟨e, hmem⟩
    rw [runAux_normal _ _ _ _ _ _ _ h2 hd] at hmem
    simp only [List.mem_cons] at hmem
    have hmem' : Except.error e ∈ runAux cfg false (count + 1) rest cursor pinned pages := by
      rcases hmem with h' | h'
      · exact absurd h' (by simp)
      · exact h'
    rw [runAux_normal _ _ _ _ _ _ _ h2 hd, runAux_normal _ _ _ _ _ _ _ h2 hd,
      ih ⟨e, hmem'⟩]
  | case4 errored count cursor pages h1 h2 t rest p hd ih =>
    simp only [Bool.not_eq_true, Bool.not_eq_false] at h1 h2
    subst h1
    rintro ⟨e, hmem⟩
    rw [runAux_pinned _ _ _ _ _ _ _ h2 hd] at hmem
    simp only [List.mem_cons] at hmem
    have hmem' : Except.error e ∈ runAux cfg false (count + 1) (t :: rest) cursor none pages := by
      rcases hmem with h' | h'
      · exact absurd h' (by simp)
      · exact h'
    rw [runAux_pinned _ _ _ _ _ _ _ h2 hd, runAux_pinned _ _ _ _ _ _ _ h2 hd,
      ih ⟨e, hmem'⟩]
  | case5 errored count cursor pages h1 h2 t rest hd =>
    simp only [Bool.not_eq_true, Bool.not_eq_false] at h1 h2
    subst h1
    rintro ⟨e, hmem⟩
    rw [runAux_pinned_none _ _ _ _ _ _ h2 hd] at hmem
    simp at hmem
  | case6 errored count cursor pages h1 h2 t rest p hd ih =>
    simp only [Bool.not_eq_true, Bool.not_eq_false] at h1 h2
    subst h1
    rintro ⟨e, hmem⟩
    rw [runAux_break_some _ _ _ _ _ _ _ h2 hd] at hmem
    simp only [List.mem_cons] at hmem
    have hmem' : Except.error e ∈ runAux cfg false count (t :: rest) cursor none pages := by
      rcases hmem with h' | h'
      · exact absurd h' (by simp)
      · exact h'
    rw [runAux_break_some _ _ _ _ _ _ _ h2 hd, runAux_break_some _ _ _ _ _ _ _ h2 hd,
      ih ⟨e, hmem'⟩]
  | case7 errored count cursor pages h1 h2 t rest hd =>
    simp only [Bool.not_eq_true, Bool.not_eq_false] at h1 h2
    subst h1
    rintro ⟨e, hmem⟩
    rw [runAux_break_none _ _ _ _ _ _ h2 hd] at hmem
    simp at hmem
  | case8 errored count pages h1 h2 p ih =>
    simp only [Bool.not_eq_true, Bool.not_eq_false] at h1 h2
    subst h1
    rintro ⟨e, hmem⟩
    rw [runAux_end_some _ _ _ _ h2] at hmem
    simp only [List.mem_cons] at hmem
    have hmem' : Except.error e ∈ runAux cfg false count [] .End none pages := by
      rcases hmem with h' | h'
      · exact absurd h' (by simp)
      · exact h'
    rw [runAux_end_some _ _ _ _ h2, runAux_end_some _ _ _ _ h2, ih ⟨e, hmem'⟩]
  | case9 errored count pages h1 h2 =>
    simp only [Bool.not_eq_true, Bool.not_eq_false] at h1 h2
    subst h1
    rintro ⟨e, hmem⟩
    rw [runAux_end_none _ _ _ h2] at hmem
    simp at hmem
  | case10 errored count cursor pinned h1 h2 hcur =>
    simp only [Bool.not_eq_true, Bool.not_eq_false] at h1 h2
    subst h1
    rintro ⟨e, hmem⟩
    rw [runAux_fetch_nil _ _ _ _ h2 (fun hE => hcur hE)] at hmem
    simp at hmem
  | case11 errored count cursor pinned h1 h2 pg ps cursor' pinned' ts hscrape hcur ih =>
    simp only [Bool.not_eq_true, Bool.not_eq_false] at h1 h2
    subst h1
    rintro ⟨e, hmem⟩
    rw [runAux_scrape_ok _ _ _ _ _ _ _ _ _ h2 (fun hE => hcur hE) hscrape] at hmem
    have : (pg :: ps) ++ junk = pg :: (ps ++ junk) := rfl
    rw [this, runAux_scrape_ok _ _ _ _ _ _ _ _ _ h2 (fun hE => hcur hE) hscrape,
      runAux_scrape_ok _ _ _ _ _ _ _ _ _ h2 (fun hE => hcur hE) hscrape, ih ⟨e, hmem⟩]
  | case12 errored count cursor pinned h1 h2 pg ps cursor' pinned' e0 hscrape hacc hcur =>
    simp only [Bool.not_eq_true, Bool.not_eq_false] at h1 h2
    subst h1
    rintro ⟨e, hmem⟩
    rw [runAux_scrape_accerr _ _ _ _ _ _ _ _ _ h2 (fun hE => hcur hE) hscrape hacc] at hmem
    simp at hmem
  | case13 errored count cursor pinned h1 h2 pg ps cursor' pinned' e0 hscrape hacc hcur ih =>
    simp only [Bool.not_eq_true, Bool.not_eq_false] at h1 h2 hacc
    subst h1
    intro _
    have : (pg :: ps) ++ junk = pg :: (ps ++ junk) := rfl
    rw [this, runAux_scrape_err _ _ _ _ _ _ _ _ _ h2 (fun hE => hcur hE) hscrape hacc,
      runAux_scrape_err _ _ _ _ _ _ _ _ _ h2 (fun hE => hcur hE) hscrape hacc]

/-- C4: stream-level error policy.  For every configuration and every run,
(a) every error item the stream yields is none of Protected, Suspended or
NotFound (those end the sequence immediately with no item), and it is the
final element of the sequence, so there is at most one; (b) once an error
item has been yielded the rest of the oracle is never fetched: extending the
oracle beyond the already-produced items leaves the run unchanged;
(c) whenever a fetch/parse step reports Protected, Suspended or NotFound
the sequence ends at once yielding no item; (d) whenever it reports any
other error exactly that one error item is yielded and is final. -/
theorem c4_error_policy (cfg : Config) (pages : List PageResult) :
    (∀ (i : Nat) (e : NitterError),
        (searchRun cfg pages)[i]? = some (.error e) →
        e ≠ .ProtectedAccount ∧ e ≠ .SuspendedAccount ∧ e ≠ .NotFound ∧
          i + 1 = (searchRun cfg pages).length) ∧
    (∀ (junk : List PageResult) (e : NitterError),
        .error e ∈ searchRun cfg pages →
        searchRun cfg (pages ++ junk) = searchRun cfg pages) ∧
    (∀ (count : Nat) (cursor : NitterCursor) (pinned : Option Tweet) (pg : PageResult)
        (ps : List PageResult) (cursor' : NitterCursor) (pinned' : Option Tweet)
        (e : NitterError),
        limitReached cfg.limit count = false → cursor ≠ .End →
        scrapePage cfg cursor pinned pg = (cursor', pinned', .error e) →
        isAccountError e = true →
        runAux cfg false count [] cursor pinned (pg :: ps) = []) ∧
    (∀ (count : Nat) (cursor : NitterCursor) (pinned : Option Tweet) (pg : PageResult)
        (ps : List PageResult) (cursor' : NitterCursor) (pinned' : Option Tweet)
        (e : NitterError),
        limitReached cfg.limit count = false → cursor ≠ .End →
        scrapePage cfg cursor pinned pg = (cursor', pinned', .error e) →
        isAccountError e = false →
        runAux cfg false count [] cursor pinned (pg :: ps) = [.error e]) := by
  refine ⟨?_, ?_, ?_, ?_⟩
  · intro i e h
    obtain ⟨ha, hl⟩ := runAux_error_last cfg false 0 [] .Initial none pages i e h
    refine ⟨?_, ?_, ?_, hl⟩ <;> (intro hE; subst hE; simp [isAccountError] at ha)
  · intro junk e hmem
    exact runAux_append_of_error cfg junk false 0 [] .Initial none pages ⟨e, hmem⟩
  · intro count cursor pinned pg ps cursor' pinned' e h hcur hs hacc
    exact runAux_scrape_accerr cfg count cursor pinned pg ps cursor' pinned' e h hcur hs hacc
  · intro count cursor pinned pg ps cursor' pinned' e h hcur hs hacc
    exact runAux_scrape_err cfg count cursor pinned pg ps cursor' pinned' e h hcur hs hacc

/-- C4 witness: a run whose first page fetch fails with a network error
yields exactly that error as its only item, extending the oracle with a
further page does not change the run, a Protected first page yields
nothing, and the step-level conjuncts reproduce both behaviours. -/
theorem c4_error_policy_witness :
    (searchRun ⟨none, false, false, none⟩ [.error (.Network "boom")])[0]? =
        some (.error (.Network "boom")) ∧
    (NitterError.Network "boom" ≠ NitterError.ProtectedAccount ∧
      NitterError.Network "boom" ≠ NitterError.SuspendedAccount ∧
      NitterError.Network "boom" ≠ NitterError.NotFound ∧
      0 + 1 = (searchRun ⟨none, false, false, none⟩ [.error (.Network "boom")]).length) ∧
    searchRun ⟨none, false, false, none⟩ ([.error (.Network "boom")] ++ [.ok ([], .End)]) =
      searchRun ⟨none, false, false, none⟩ [.error (.Network "boom")] ∧
    runAux ⟨none, false, false, none⟩ false 0 [] .Initial none
        [.error .ProtectedAccount] = [] ∧
    runAux ⟨none, false, false, none⟩ false 0 [] .Initial none
        [.error (.Network "boom")] = [.error (.Network "boom")] := by
  have hrun : searchRun ⟨none, false, false, none⟩ [.error (.Network "boom")] =
      [.error (.Network "boom")] := by
    simp [searchRun, runAux, limitReached, scrapePage, extractPinned, isAccountError]
  have h0 : (searchRun ⟨none, false, false, none⟩ [.error (.Network "boom")])[0]? =
      some (.error (.Network "boom")) := by rw [hrun]; rfl
  refine ⟨h0, (c4_error_policy ⟨none, false, false, none⟩ [.error (.Network "boom")]).1 0 _ h0,
    (c4_error_policy ⟨none, false, false, none⟩ [.error (.Network "boom")]).2.1 [.ok ([], .End)]
      (.Network "boom") (by rw [hrun]; exact List.mem_singleton.mpr rfl), ?_, ?_⟩
  · exact (c4_error_policy ⟨none, false, false, none⟩ []).2.2.1 0 .Initial none
      (.error .ProtectedAccount) [] .Initial none .ProtectedAccount rfl (by simp) rfl rfl
  · exact (c4_error_policy ⟨none, false, false, none⟩ []).2.2.2 0 .Initial none
      (.error (.Network "boom")) [] .Initial none (.Network "boom") rfl (by simp) rfl rfl

/-! ## C5: min-id floor invariant -/

/-- `extractPinned` preserves the min-id stash invariant. -/
theorem extractPinned_min (M : Nat) (pinned : Option Tweet) (pts : List Tweet)
    (hp : ∀ p, pinned = some p → M ≤ p.id) :
    ∀ p', extractPinned (some M) pinned pts = some p' → M ≤ p'.id := by
  intro p' h
  unfold extractPinned at h
  rcases hL : pts.getLast? with _ | t0
  · simp only [hL] at h
    exact hp p' h
  · simp only [hL] at h
    by_cases hge : t0.id ≥ M
    · rw [if_pos hge] at h
      have ht : t0 = p' := Option.some.inj h
      subst ht
      exact hge
    · rw [if_neg hge] at h
      exact hp p' h

/-- `scrape_page` preserves the stash invariant: when a minimum id is
configured, any tweet it stashes (or keeps stashed) satisfies the floor
(src/lib.rs lines 273-290). -/
theorem scrapePage_min_id (cfg : Config) (M : Nat) (hm : cfg.min_id = some M)
    (cursor : NitterCursor) (pinned : Option Tweet) (page : PageResult)
    (hp : ∀ p, pinned = some p → M ≤ p.id) :
    ∀ p', (scrapePage cfg cursor pinned page).2.1 = some p' → M ≤ p'.id := by
  intro p' h
  unfold scrapePage at h
  cases cursor with
  | End => exact hp p' h
  | Initial =>
    rcases page with e | ⟨ts, nc⟩
    · exact hp p' h
    · simp only [hm] at h
      by_cases hr : cfg.reorder_pinned
      · rw [if_pos hr] at h
        exact extractPinned_min M pinned _ hp p' h
      · rw [if_neg hr] at h
        exact hp p' h
  | More s =>
    rcases page with e | ⟨ts, nc⟩
    · exact hp p' h
    · simp only [hm] at h
      by_cases hr : cfg.reorder_pinned
      · rw [if_pos hr] at h
        exact extractPinned_min M pinned _ hp p' h
      · rw [if_neg hr] at h
        exact hp p' h

/-- Every tweet the stream emits satisfies a configured minimum-id floor,
provided the current stash does. -/
theorem runAux_min_id (cfg : Config) (M : Nat) (hm : cfg.min_id = some M) :
    ∀ (errored : Bool) (count : Nat) (tweets : List Tweet) (cursor : NitterCursor)
    (pinned : Option Tweet) (pages : List PageResult),
    (∀ p, pinned = some p → M ≤ p.id) →
    ∀ t, .ok t ∈ runAux cfg errored count tweets cursor pinned pages → M ≤ t.id := by
  intro errored count tweets cursor pinned pages
  induction errored, count, tweets, cursor, pinned, pages using runAux.induct cfg with
  | case1 count tweets cursor pinned pages =>
    intro _ t hmem
    rw [runAux_true] at hmem
    simp at hmem
  | case2 errored count tweets cursor pinned pages h1 h2 =>
    simp only [Bool.not_eq_true, Bool.not_eq_false] at h1 h2
    subst h1
    intro _ t hmem
    rw [runAux_limit _ _ _ _ _ _ h2] at hmem
    simp at hmem
  | case3 errored count cursor pinned pages h1 h2 t rest hd ih =>
    simp only [Bool.not_eq_true, Bool.not_eq_false] at h1 h2
    subst h1
    intro hp t0 hmem
    rw [runAux_normal _ _ _ _ _ _ _ h2 hd] at hmem
    rcases List.mem_cons.mp hmem with h' | h'
    · have : t0 = t := by exact Except.ok.inj h'
      subst this
      exact shouldReturnTweet_normal_min t0 pinned cfg.min_id cfg.reorder_pinned M hd hm
    · exact ih hp t0 h'
  | case4 errored count cursor pages h1 h2 t rest p hd ih =>
    simp only [Bool.not_eq_true, Bool.not_eq_false] at h1 h2
    subst h1
    intro hp t0 hmem
    rw [runAux_pinned _ _ _ _ _ _ _ h2 hd] at hmem
    rcases List.mem_cons.mp hmem with h' | h'
    · have : t0 = p := by exact Except.ok.inj h'
      subst this
      exact hp t0 rfl
    · exact ih (fun q hq => by simp at hq) t0 h'
  | case5 errored count cursor pages h1 h2 t rest hd =>
    simp only [Bool.not_eq_true, Bool.not_eq_false] at h1 h2
    subst h1
    intro _ t0 hmem
    rw [runAux_pinned_none _ _ _ _ _ _ h2 hd] at hmem
    simp at hmem
  | case6 errored count cursor pages h1 h2 t rest p hd ih =>
    simp only [Bool.not_eq_true, Bool.not_eq_false] at h1 h2
    subst h1
    intro hp t0 hmem
    rw [runAux_break_some _ _ _ _ _ _ _ h2 hd] at hmem
    rcases List.mem_cons.mp hmem with h' | h'
    · have : t0 = p := by exact Except.ok.inj h'
      subst this
      exact hp t0 rfl
    · exact ih (fun q hq => by simp at hq) t0 h'
  | case7 errored count cursor pages h1 h2 t rest hd =>
    simp only [Bool.not_eq_true, Bool.not_eq_false] at h1 h2
    subst h1
    intro _ t0 hmem
    rw [runAux_break_none _ _ _ _ _ _ h2 hd] at hmem
    simp at hmem
  | case8 errored count pages h1 h2 p ih =>
    simp only [Bool.not_eq_true, Bool.not_eq_false] at h1 h2
    subst h1
    intro hp t0 hmem
    rw [runAux_end_some _ _ _ _ h2] at hmem
    rcases List.mem_cons.mp hmem with h' | h'
    · have : t0 = p := by exact Except.ok.inj h'
      subst this
      exact hp t0 rfl
    · exact ih (fun q hq => by simp at hq) t0 h'
  | case9 errored count pages h1 h2 =>
    simp only [Bool.not_eq_true, Bool.not_eq_false] at h1 h2
    subst h1
    intro _ t0 hmem
    rw [runAux_end_none _ _ _ h2] at hmem
    simp at hmem
  | case10 errored count cursor pinned h1 h2 hcur =>
    simp only [Bool.not_eq_true, Bool.not_eq_false] at h1 h2
    subst h1
    intro _ t0 hmem
    rw [runAux_fetch_nil _ _ _ _ h2 (fun hE => hcur hE)] at hmem
    simp at hmem
  | case11 errored count cursor pinned h1 h2 pg ps cursor' pinned' ts hscrape hcur ih =>
    simp only [Bool.not_eq_true, Bool.not_eq_false] at h1 h2
    subst h1
    intro hp t0 hmem
    rw [runAux_scrape_ok _ _ _ _ _ _ _ _ _ h2 (fun hE => hcur hE) hscrape] at hmem
    have hstash : ∀ q, pinned' = some q → M ≤ q.id := by
      intro q hq
      exact scrapePage_min_id cfg M hm cursor pinned pg hp q (by rw [hscrape]; exact hq)
    exact ih hstash t0 hmem
  | case12 errored count cursor pinned h1 h2 pg ps cursor' pinned' e0 hscrape hacc hcur =>
    simp only [Bool.not_eq_true, Bool.not_eq_false] at h1 h2
    subst h1
    intro _ t0 hmem
    rw [runAux_scrape_accerr _ _ _ _ _ _ _ _ _ h2 (fun hE => hcur hE) hscrape hacc] at hmem
    simp at hmem
  | case13 errored count cursor pinned h1 h2 pg ps cursor' pinned' e0 hscrape hacc hcur ih =>
    simp only [Bool.not_eq_true, Bool.not_eq_false] at h1 h2 hacc
    subst h1
    intro _ t0 hmem
    rw [runAux_scrape_err _ _ _ _ _ _ _ _ _ h2 (fun hE => hcur hE) hscrape hacc] at hmem
    simp at hmem

/-- C5: min-id floor invariant.  For every configured minimum id M, every
post the stream emits over any run — including a stashed pinned post
emitted by reordering or at end of sequence — has id ≥ M. -/
theorem c5_min_id_floor (cfg : Config) (M : Nat) (hm : cfg.min_id = some M)
    (pages : List PageResult) (t : Tweet)
    (hmem : .ok t ∈ searchRun cfg pages) : M ≤ t.id :=
  runAux_min_id cfg M hm false 0 [] .Initial none pages
    (fun p hp => by simp at hp) t hmem

/-- C5 witness: with floor 5, the run on a page containing a pinned tweet
with id 9 and posts with ids 10 and 3 emits tweets of ids 10 and 9 only,
each of which the theorem bounds below by 5. -/
theorem c5_min_id_floor_witness :
    searchRun ⟨none, true, false, some 5⟩
        [.ok ([mkTweet 9 7 true false, mkTweet 10 10 false false,
               mkTweet 3 5 false false], .End)] =
      [.ok (mkTweet 10 10 false false), .ok (mkTweet 9 7 true false)] ∧
    5 ≤ (mkTweet 10 10 false false).id ∧ 5 ≤ (mkTweet 9 7 true false).id := by
  have hrun : searchRun ⟨none, true, false, some 5⟩
      [.ok ([mkTweet 9 7 true false, mkTweet 10 10 false false,
             mkTweet 3 5 false false], .End)] =
      [.ok (mkTweet 10 10 false false), .ok (mkTweet 9 7 true false)] := by
    rw [searchRun, runAux]
    · simp [limitReached, scrapePage, extractPinned, mkTweet]
      rw [runAux]
      simp [limitReached, shouldReturnTweet, shouldReturnTweetMinId, mkTweet]
      rw [runAux]
      simp [limitReached, shouldReturnTweet, mkTweet]
      rw [runAux]
      simp [limitReached, shouldReturnTweet, shouldReturnTweetMinId, mkTweet]
    · simp
  refine ⟨hrun, ?_, ?_⟩
  · exact c5_min_id_floor ⟨none, true, false, some 5⟩ 5 rfl _ _ (by rw [hrun]; simp)
  · exact c5_min_id_floor ⟨none, true, false, some 5⟩ 5 rfl _ _ (by rw [hrun]; simp)

/-! ## C6: limit invariant -/

/-- A false limit check with a configured limit means the count is below it. -/
theorem limitReached_false (L c : Nat) (h : limitReached (some L) c = false) : c < L := by
  simp [limitReached] at h
  omega

/-- With a configured limit L, the stream emits at most `L - count` more
items (posts and error items together). -/
theorem runAux_length_le (cfg : Config) (L : Nat) (hl : cfg.limit = some L) :
    ∀ (errored : Bool) (count : Nat) (tweets : List Tweet) (cursor : NitterCursor)
    (pinned : Option Tweet) (pages : List PageResult),
    (runAux cfg errored count tweets cursor pinned pages).length ≤ L - count := by
  intro errored count tweets cursor pinned pages
  induction errored, count, tweets, cursor, pinned, pages using runAux.induct cfg with
  | case1 count tweets cursor pinned pages =>
    rw [runAux_true]
    simp
  | case2 errored count tweets cursor pinned pages h1 h2 =>
    simp only [Bool.not_eq_true, Bool.not_eq_false] at h1 h2
    subst h1
    rw [runAux_limit _ _ _ _ _ _ h2]
    simp
  | case3 errored count cursor pinned pages h1 h2 t rest hd ih =>
    simp only [Bool.not_eq_true, Bool.not_eq_false] at h1 h2
    subst h1
    rw [runAux_normal _ _ _ _ _ _ _ h2 hd]
    have hc : count < L := limitReached_false L count (by rw [← hl]; exact h2)
    simp only [List.length_cons]
    omega
  | case4 errored count cursor pages h1 h2 t rest p hd ih =>
    simp only [Bool.not_eq_true, Bool.not_eq_false] at h1 h2
    subst h1
    rw [runAux_pinned _ _ _ _ _ _ _ h2 hd]
    have hc : count < L := limitReached_false L count (by rw [← hl]; exact h2)
    simp only [List.length_cons]
    omega
  | case5 errored count cursor pages h1 h2 t rest hd =>
    simp only [Bool.not_eq_true, Bool.not_eq_false] at h1 h2
    subst h1
    rw [runAux_pinned_none _ _ _ _ _ _ h2 hd]
    simp
  | case6 errored count cursor pages h1 h2 t rest p hd ih =>
    simp only [Bool.not_eq_true, Bool.not_eq_false] at h1 h2
    subst h1
    rw [runAux_break_some _ _ _ _ _ _ _ h2 hd]
    have hc : count < L := limitReached_false L count (by rw [← hl]; exact h2)
    have hmin : shouldReturnTweetMinId t cfg.min_id = .None :=
      shouldReturnTweet_none_inv t (some p) cfg.min_id cfg.reorder_pinned hd
    have hnone : shouldReturnTweet t none cfg.min_id cfg.reorder_pinned = .None := by
      rw [shouldReturnTweet_none]
      exact hmin
    rw [runAux_break_none _ _ _ _ _ _ h2 hnone]
    simp
    omega
  | case7 errored count cursor pages h1 h2 t rest hd =>
    simp only [Bool.not_eq_true, Bool.not_eq_false] at h1 h2
    subst h1
    rw [runAux_break_none _ _ _ _ _ _ h2 hd]
    simp
  | case8 errored count pages h1 h2 p ih =>
    simp only [Bool.not_eq_true, Bool.not_eq_false] at h1 h2
    subst h1
    rw [runAux_end_some _ _ _ _ h2, runAux_end_none _ _ _ h2]
    have hc : count < L := limitReached_false L count (by rw [← hl]; exact h2)
    simp
    omega
  | case9 errored count pages h1 h2 =>
    simp only [Bool.not_eq_true, Bool.not_eq_false] at h1 h2
    subst h1
    rw [runAux_end_none _ _ _ h2]
    simp
  | case10 errored count cursor pinned h1 h2 hcur =>
    simp only [Bool.not_eq_true, Bool.not_eq_false] at h1 h2
    subst h1
    rw [runAux_fetch_nil _ _ _ _ h2 (fun hE => hcur hE)]
    simp
  | case11 errored count cursor pinned h1 h2 pg ps cursor' pinned' ts hscrape hcur ih =>
    simp only [Bool.not_eq_true, Bool.not_eq_false] at h1 h2
    subst h1
    rw [runAux_scrape_ok _ _ _ _ _ _ _ _ _ h2 (fun hE => hcur hE) hscrape]
    exact ih
  | case12 errored count cursor pinned h1 h2 pg ps cursor' pinned' e0 hscrape hacc hcur =>
    simp only [Bool.not_eq_true, Bool.not_eq_false] at h1 h2
    subst h1
    rw [runAux_scrape_accerr _ _ _ _ _ _ _ _ _ h2 (fun hE => hcur hE) hscrape hacc]
    simp
  | case13 errored count cursor pinned h1 h2 pg ps cursor' pinned' e0 hscrape hacc hcur ih =>
    simp only [Bool.not_eq_true, Bool.not_eq_false] at h1 h2 hacc
    subst h1
    rw [runAux_scrape_err _ _ _ _ _ _ _ _ _ h2 (fun hE => hcur hE) hscrape hacc]
    have hc : count < L := limitReached_false L count (by rw [← hl]; exact h2)
    simp
    omega

/-- C6: limit invariant.  For every configured limit L, the number of items
the stream emits over any run (posts and error items together) never
exceeds L; in particular once L items have been emitted, enumeration stops
regardless of remaining queue contents or a remaining stashed pinned
post. -/
theorem c6_limit (cfg : Config) (L : Nat) (hl : cfg.limit = some L)
    (pages : List PageResult) :
    (searchRun cfg pages).length ≤ L ∧
    (∀ (count : Nat) (tweets : List Tweet) (cursor : NitterCursor)
        (pinned : Option Tweet) (pages2 : List PageResult), L ≤ count →
        runAux cfg false count tweets cursor pinned pages2 = []) := by
  constructor
  · have := runAux_length_le cfg L hl false 0 [] .Initial none pages
    simpa using this
  · intro count tweets cursor pinned pages2 hcount
    apply runAux_limit
    rw [hl]
    simp [limitReached]
    omega

/-- C6 witness: with limit 1, a page holding two eligible posts (and a
further continuation page) produces at most one item; and a state that has
already emitted one item stops even with a queued post and a stashed pinned
post remaining. -/
theorem c6_limit_witness :
    (searchRun ⟨some 1, false, false, none⟩
        [.ok ([mkTweet 1 10 false false, mkTweet 2 5 false false], .More "next"),
         .ok ([mkTweet 3 1 false false], .End)]).length ≤ 1 ∧
    runAux ⟨some 1, false, false, none⟩ false 1 [mkTweet 2 5 false false] .Initial
        (some (mkTweet 4 7 true false)) [.ok ([], .End)] = [] :=
  ⟨(c6_limit ⟨some 1, false, false, none⟩ 1 rfl _).1,
   (c6_limit ⟨some 1, false, false, none⟩ 1 rfl []).2 1 [mkTweet 2 5 false false] .Initial
     (some (mkTweet 4 7 true false)) [.ok ([], .End)] (le_refl 1)⟩

/-! ## DOM model (the `scraper` crate's parsed document)

A document is modelled as its already-parsed DOM tree: elements carry a tag
name, a class list and an attribute list; the only other node kind relevant
to the parser is a text node.  `Html::select` iterates all elements of the
document in document (preorder) order; `ElementRef::select` iterates the
proper descendants of an element; `ElementRef::text` iterates the text
nodes of the subtree in order. -/

inductive Node where
  | element (tag : String) (classes : List String) (attrs : List (String × String))
      (children : List Node)
  | text (s : String)

/-- Does an element node carry the given class? -/
def hasClass (c : String) : Node → Bool
  | .element _ classes _ _ => c ∈ classes
  | .text _ => false

/-- The tag name of an element node (text nodes have none). -/
def tagOf : Node → String
  | .element t _ _ _ => t
  | .text _ => ""

/-- First value of an attribute (the `scraper` crate deduplicates attribute
names at parse time). -/
def attrOf (name : String) : Node → Option String
  | .element _ _ attrs _ => attrs.lookup name
  | .text _ => none

mutual

/-- All elements of the subtree (including the node itself) satisfying `p`,
in document order: models `Html::select` applied at the root. -/
def selectAll (p : Node → Bool) : Node → List Node
  | .element t c a ch =>
    (if p (.element t c a ch) then [.element t c a ch] else []) ++ selectAllL p ch
  | .text _ => []

def selectAllL (p : Node → Bool) : List Node → List Node
  | [] => []
  | n :: ns => selectAll p n ++ selectAllL p ns

end

/-- Proper-descendant selection: models `ElementRef::select` with a simple
(single compound) selector. -/
def selectSub (p : Node → Bool) : Node → List Node
  | .element _ _ _ ch => selectAllL p ch
  | .text _ => []

mutual

/-- Child-combinator selection (`parent > child`): all elements satisfying
`pc` whose parent satisfies `pp`, in document order.  `parentMatches` says
whether the current node's parent satisfies `pp`. -/
def selectChild (pp pc : Node → Bool) (parentMatches : Bool) : Node → List Node
  | .element t c a ch =>
    (if parentMatches && pc (.element t c a ch) then [.element t c a ch] else []) ++
      selectChildL pp pc (pp (.element t c a ch)) ch
  | .text _ => []

def selectChildL (pp pc : Node → Bool) (parentMatches : Bool) : List Node → List Node
  | [] => []
  | n :: ns => selectChild pp pc parentMatches n ++ selectChildL pp pc parentMatches ns

end

/-- `ElementRef::select` with a child-combinator selector: candidates are
the proper descendants of the scope element; the scope element itself can
be the matching parent. -/
def selectChildSub (pp pc : Node → Bool) : Node → List Node
  | .element t c a ch => selectChildL pp pc (pp (.element t c a ch)) ch
  | .text _ => []

mutual

/-- Descendant-combinator selection (`ancestor descendant`): all elements
satisfying `pd` having an ancestor satisfying `pa`.  `inside` says whether
some ancestor of the current node satisfies `pa`.  (Ancestors above the
scope element are not modelled.) -/
def selectDesc (pa pd : Node → Bool) (inside : Bool) : Node → List Node
  | .element t c a ch =>
    (if inside && pd (.element t c a ch) then [.element t c a ch] else []) ++
      selectDescL pa pd (inside || pa (.element t c a ch)) ch
  | .text _ => []

def selectDescL (pa pd : Node → Bool) (inside : Bool) : List Node → List Node
  | [] => []
  | n :: ns => selectDesc pa pd inside n ++ selectDescL pa pd inside ns

end

/-- `ElementRef::select` with a descendant-combinator selector: candidates
are proper descendants; the scope element itself can be the ancestor. -/
def selectDescSub (pa pd : Node → Bool) : Node → List Node
  | .element t c a ch => selectDescL pa pd (pa (.element t c a ch)) ch
  | .text _ => []

mutual

/-- The text nodes of the subtree of a node, in document order: models
`ElementRef::text`. -/
def textsOf : Node → List String
  | .element _ _ _ ch => textsOfL ch
  | .text s => [s]

def textsOfL : List Node → List String
  | [] => []
  | n :: ns => textsOf n ++ textsOfL ns

end

/-- Is this child of a `.quote` element kept by the quote-stripping pass?
The selector `.quote > *:not(.quote-link)` matches element children without
the `quote-link` class; text-node children are not matched (and hence
kept). -/
def keepQuoteChild : Node → Bool
  | .element _ classes _ _ => "quote-link" ∈ classes
  | .text _ => true

mutual

/-- src/parse.rs lines 36-45 (and 61-70): collect every node matched by
`.quote > *:not(.quote-link)` and detach it.  Detaching a subtree whose
ancestor is also detached is a no-op on the resulting tree, so the pass is
equivalent to this recursive filter: under a `.quote` element
(`parentQuote`), element children lacking the `quote-link` class are
dropped with their whole subtree. -/
def stripQuotes : Node → Node
  | .element t c a ch => .element t c a (stripQuotesL (decide ("quote" ∈ c)) ch)
  | .text s => .text s

def stripQuotesL (parentQuote : Bool) : List Node → List Node
  | [] => []
  | n :: ns =>
    if parentQuote && !keepQuoteChild n then stripQuotesL parentQuote ns
    else stripQuotes n :: stripQuotesL parentQuote ns

end

/-! ## Selector predicates (the `Lazy<Selector>` tables of src/parse.rs) -/

/-- `.timeline-item:not(.show-more):not(.unavailable):not(.threadunavailable)` -/
def isTimelineItem (n : Node) : Bool :=
  hasClass "timeline-item" n && !hasClass "show-more" n && !hasClass "unavailable" n &&
    !hasClass "threadunavailable" n

/-- `div.error-panel` -/
def isErrorPanel (n : Node) : Bool :=
  tagOf n == "div" && hasClass "error-panel" n

/-- `div.timeline-protected` -/
def isProtectedMarker (n : Node) : Bool :=
  tagOf n == "div" && hasClass "timeline-protected" n

/-- `.show-more:not(.timeline-item)` (ancestor part of the cursor selector) -/
def isShowMoreNotTimeline (n : Node) : Bool :=
  hasClass "show-more" n && !hasClass "timeline-item" n

/-- bare `a` -/
def isA (n : Node) : Bool :=
  tagOf n == "a"

/-- `.tweet-date` (parent part of `.tweet-date > a`) -/
def isTweetDate (n : Node) : Bool :=
  hasClass "tweet-date" n

/-- `span.tweet-date` (ancestor part of `span.tweet-date a`) -/
def isSpanTweetDate (n : Node) : Bool :=
  tagOf n == "span" && hasClass "tweet-date" n

/-- `a.fullname` -/
def isFullnameLink (n : Node) : Bool :=
  tagOf n == "a" && hasClass "fullname" n

/-- `.tweet-content` -/
def isTweetContent (n : Node) : Bool :=
  hasClass "tweet-content" n

/-- `.attachment.image` (ancestor part of `.attachment.image a.still-image`) -/
def isAttachmentImage (n : Node) : Bool :=
  hasClass "attachment" n && hasClass "image" n

/-- `a.still-image` -/
def isStillImageLink (n : Node) : Bool :=
  tagOf n == "a" && hasClass "still-image" n

/-- `div.main-tweet` (parent part of `div.main-tweet > .timeline-item`) -/
def isMainTweetDiv (n : Node) : Bool :=
  tagOf n == "div" && hasClass "main-tweet" n

/-- `.tweet-stat` (parent part of `.tweet-stat > .icon-container`) -/
def isTweetStat (n : Node) : Bool :=
  hasClass "tweet-stat" n

/-- `.icon-container` -/
def isIconContainer (n : Node) : Bool :=
  hasClass "icon-container" n

/-! ## Timestamp model (the `time` crate usage of src/parse.rs lines 241-260)

The title attribute is parsed with the fixed format
"[month short] [day], [year] · [hour12]:[minute] [AM/PM] UTC", interpreted
as UTC; the tweet carries both the RFC 2822 re-encoding and the Unix
timestamp.  Proleptic-Gregorian day arithmetic. -/

def isLeapYear (y : Nat) : Bool :=
  (y % 4 == 0 && y % 100 != 0) || y % 400 == 0

def daysInMonth (y m : Nat) : Nat :=
  match m with
  | 1 => 31
  | 2 => if isLeapYear y then 29 else 28
  | 3 => 31
  | 4 => 30
  | 5 => 31
  | 6 => 30
  | 7 => 31
  | 8 => 31
  | 9 => 30
  | 10 => 31
  | 11 => 30
  | 12 => 31
  | _ => 0

/-- Number of leap years in `[0, y)` (year 0 is a leap year). -/
def leapsBefore (y : Nat) : Nat :=
  if y = 0 then 0 else 1 + (y - 1) / 4 - (y - 1) / 100 + (y - 1) / 400

/-- Days in the months of year `y` strictly before month `m`. -/
def cumDaysBefore (y m : Nat) : Nat :=
  (List.range (m - 1)).foldl (fun acc i => acc + daysInMonth y (i + 1)) 0

/-- Day index of a proleptic-Gregorian civil date counted from 0000-01-01. -/
def civilDays (y m d : Nat) : Nat :=
  365 * y + leapsBefore y + cumDaysBefore y m + (d - 1)

/-- Unix timestamp of a UTC date-time (no seconds in the parsed format). -/
def unixTs (y m d hh mi : Nat) : Int :=
  ((civilDays y m d : Int) - (civilDays 1970 1 1 : Int)) * 86400 + hh * 3600 + mi * 60

def monthFromShort (s : String) : Option Nat :=
  match s with
  | "Jan" => some 1
  | "Feb" => some 2
  | "Mar" => some 3
  | "Apr" => some 4
  | "May" => some 5
  | "Jun" => some 6
  | "Jul" => some 7
  | "Aug" => some 8
  | "Sep" => some 9
  | "Oct" => some 10
  | "Nov" => some 11
  | "Dec" => some 12
  | _ => none

def monthShortName (m : Nat) : String :=
  match m with
  | 1 => "Jan"
  | 2 => "Feb"
  | 3 => "Mar"
  | 4 => "Apr"
  | 5 => "May"
  | 6 => "Jun"
  | 7 => "Jul"
  | 8 => "Aug"
  | 9 => "Sep"
  | 10 => "Oct"
  | 11 => "Nov"
  | 12 => "Dec"
  | _ => ""

def weekdayName (w : Nat) : String :=
  match w with
  | 0 => "Sun"
  | 1 => "Mon"
  | 2 => "Tue"
  | 3 => "Wed"
  | 4 => "Thu"
  | 5 => "Fri"
  | 6 => "Sat"
  | _ => ""

def pad2 (n : Nat) : String :=
  if n < 10 then "0" ++ toString n else toString n

def pad4 (n : Nat) : String :=
  if n < 10 then "000" ++ toString n
  else if n < 100 then "00" ++ toString n
  else if n < 1000 then "0" ++ toString n
  else toString n

/-- RFC 2822 re-encoding (`OffsetDateTime::format(&Rfc2822)`), e.g.
"Tue, 05 Jan 2021 15:04:00 +0000".  (The `time` crate's formatter rejects
some out-of-range years; total here, which does not affect any claim.) -/
def rfc2822String (y m d hh mi : Nat) : String :=
  weekdayName ((civilDays y m d + 6) % 7) ++ ", " ++ pad2 d ++ " " ++ monthShortName m ++
    " " ++ pad4 y ++ " " ++ pad2 hh ++ ":" ++ pad2 mi ++ ":00 +0000"

/-- Parse the fixed nitter date format
"Mon D, YYYY · H:MM AM/PM UTC" to (year, month, day, hour24, minute),
validating ranges as `PrimitiveDateTime::parse` does. -/
def parseNitterDate (s : String) : Option (Nat × Nat × Nat × Nat × Nat) := do
  let l := s.toList
  let month ← monthFromShort (l.take 3).asString
  let l := l.drop 3
  let l ← match l with
    | ' ' :: r => some r
    | _ => none
  let dayRun := l.takeWhile Char.isDigit
  if dayRun.isEmpty || dayRun.length > 2 then none else
  let day := digitsToNat dayRun
  let l := l.drop dayRun.length
  let l ← match l with
    | ',' :: ' ' :: r => some r
    | _ => none
  let yearRun := l.takeWhile Char.isDigit
  if yearRun.length ≠ 4 then none else
  let year := digitsToNat yearRun
  let l := l.drop 4
  let l ← match l with
    | ' ' :: '·' :: ' ' :: r => some r
    | _ => none
  let hourRun := l.takeWhile Char.isDigit
  if hourRun.isEmpty || hourRun.length > 2 then none else
  let hour12 := digitsToNat hourRun
  let l := l.drop hourRun.length
  let l ← match l with
    | ':' :: r => some r
    | _ => none
  let minRun := l.takeWhile Char.isDigit
  if minRun.length ≠ 2 then none else
  let minute := digitsToNat minRun
  let l := l.drop 2
  let (isPM, l) ← match l with
    | ' ' :: 'A' :: 'M' :: r => some (false, r)
    | ' ' :: 'P' :: 'M' :: r => some (true, r)
    | _ => none
  if l ≠ [' ', 'U', 'T', 'C'] then none else
  if day < 1 || day > daysInMonth year month then none else
  if hour12 < 1 || hour12 > 12 then none else
  if minute > 59 then none else
  let hour24 :=
    if isPM then (if hour12 = 12 then 12 else hour12 + 12)
    else (if hour12 = 12 then 0 else hour12)
  some (year, month, day, hour24, minute)

/-! ## Page parser (src/parse.rs) -/

/-- src/parse.rs lines 126-131: `parse_protected` — a
`div.timeline-protected` marker element is present. -/
def parse_protected (element : Node) : Bool :=
  !(selectSub isProtectedMarker element).isEmpty

/-- src/parse.rs lines 135-142: `parse_suspended` — the FIRST `div.error-panel`
element's FIRST text node contains "has been suspended". -/
def parse_suspended (element : Node) : Bool :=
  (((selectSub isErrorPanel element).head?.bind
      (fun el => (textsOf el).head?)).map
    (fun t => substrContains t "has been suspended")) == some true

/-- src/parse.rs lines 144-151: `parse_not_found` — the FIRST `div.error-panel`
element's FIRST text node contains "not found". -/
def parse_not_found (element : Node) : Bool :=
  (((selectSub isErrorPanel element).head?.bind
      (fun el => (textsOf el).head?)).map
    (fun t => substrContains t "not found")) == some true

/-- src/parse.rs lines 155-156: the `TWEET_LINK_RE` regular expression
`^/(?P<screen_name>\w+)/status/(?P<id>\d+)`; returns the two captures.
Both character classes are munched maximally, which coincides with the
backtracking semantics since neither can match the following literal. -/
def tweetLinkCaptures (href : String) : Option (String × String) :=
  match href.toList with
  | '/' :: rest =>
    let name := rest.takeWhile isWordChar
    if name.isEmpty then none
    else
      let after := rest.drop name.length
      if after.take 8 = "/status/".toList then
        let digits := (after.drop 8).takeWhile Char.isDigit
        if digits.isEmpty then none
        else some (name.asString, digits.asString)
      else none
  | _ => none

/-- src/parse.rs lines 158-167: `parse_tweet_full_name` — the `title`
attribute of the first `a.fullname` descendant. -/
def parse_tweet_full_name (element : Node) : Except NitterError String :=
  match (selectSub isFullnameLink element).head?.bind (attrOf "title") with
  | some fullname => .ok fullname
  | none => .error (.Parse "missing full_name")

/-- src/parse.rs lines 169-178: `parse_tweet_screen_name` — the
`screen_name` capture of the first `.tweet-date > a` href. -/
def parse_tweet_screen_name (element : Node) : Except NitterError String :=
  match ((selectChildSub isTweetDate isA element).head?.bind (attrOf "href")).bind
      (fun l => (tweetLinkCaptures l).map (fun c => c.1)) with
  | some name => .ok name
  | none => .error (.Parse "missing screen_name")

/-- src/parse.rs lines 180-189: `parse_tweet_id_str` — the `id` capture of
the first `.tweet-date > a` href. -/
def parse_tweet_id_str (element : Node) : Except NitterError String :=
  match ((selectChildSub isTweetDate isA element).head?.bind (attrOf "href")).bind
      (fun l => (tweetLinkCaptures l).map (fun c => c.2)) with
  | some idStr => .ok idStr
  | none => .error (.Parse "missing id")

/-- src/parse.rs lines 194-202: `parse_tweet_body` — the concatenated text
of the first `.tweet-content` descendant. -/
def parse_tweet_body (element : Node) : Except NitterError String :=
  match (selectSub isTweetContent element).head? with
  | some body => .ok (String.join (textsOf body))
  | none => .error (.Parse "missing body")

/-- src/parse.rs lines 204-217: `parse_links` — hrefs of `a` descendants of
the first `.tweet-content` descendant, excluding site-relative links
(those starting with '/'). -/
def parse_links (element : Node) : Except NitterError (List String) :=
  match (selectSub isTweetContent element).head? with
  | some body =>
    .ok (((selectSub isA body).filterMap (attrOf "href")).filter
      (fun l => !startsWithSlash l))
  | none => .error (.Parse "missing body")

/-- src/parse.rs lines 222-223: the `IMAGE_ID_RE` regular expression
`^/pic/\w+/media%2F(?P<url>[\w\-]+\.\w+)$`; returns the `url` capture. -/
def imageCapture (link : String) : Option String :=
  let l := link.toList
  if l.take 5 = "/pic/".toList then
    let rest := l.drop 5
    let w := rest.takeWhile isWordChar
    if w.isEmpty then none
    else
      let after := rest.drop w.length
      if after.take 9 = "/media%2F".toList then
        let tail := after.drop 9
        let part1 := tail.takeWhile (fun c => isWordChar c || c == '-')
        if part1.isEmpty then none
        else
          match tail.drop part1.length with
          | '.' :: ext =>
            if !ext.isEmpty && ext.all isWordChar then some tail.asString else none
          | _ => none
      else none
  else none

/-- src/parse.rs lines 219-239: `parse_tweet_images` — hrefs of
`.attachment.image a.still-image` descendants matching `IMAGE_ID_RE`,
rewritten to the media CDN. -/
def parse_tweet_images (element : Node) : List String :=
  (selectDescSub isAttachmentImage isStillImageLink element).filterMap
    (fun e => (attrOf "href" e).bind
      (fun link => (imageCapture link).map
        (fun u => "https://pbs.twimg.com/media/" ++ u)))

/-- src/parse.rs lines 241-260: `parse_tweet_time` — the `title` attribute
of the first `span.tweet-date a` descendant, parsed with the fixed format,
yielding the RFC 2822 re-encoding and the Unix timestamp. -/
def parse_tweet_time (element : Node) : Except NitterError (String × Int) :=
  match ((selectDescSub isSpanTweetDate isA element).head?.bind (attrOf "title")).bind
      parseNitterDate with
  | some (y, m, d, hh, mi) => .ok (rfc2822String y m d hh mi, unixTs y m d hh mi)
  | none => .error (.Parse "missing time")

/-- src/parse.rs lines 262-267: `parse_tweet_retweet`. -/
def parse_tweet_retweet (element : Node) : Bool :=
  !(selectSub (hasClass "retweet-header") element).isEmpty

/-- src/parse.rs lines 269-273: `parse_tweet_pinned`. -/
def parse_tweet_pinned (element : Node) : Bool :=
  !(selectSub (hasClass "pinned") element).isEmpty

/-- src/parse.rs lines 275-279: `parse_tweet_reply`. -/
def parse_tweet_reply (element : Node) : Bool :=
  !(selectSub (hasClass "replying-to") element).isEmpty

/-- src/parse.rs lines 281-285: `parse_tweet_quote`. -/
def parse_tweet_quote (element : Node) : Bool :=
  !(selectSub (hasClass "quote") element).isEmpty

/-- src/parse.rs lines 287-311: `TweetStat` and its icon-class selectors. -/
inductive TweetStat where
  | Comment
  | Retweet
  | Quote
  | Heart

def TweetStat.iconClass : TweetStat → String
  | .Comment => "icon-comment"
  | .Retweet => "icon-retweet"
  | .Quote => "icon-quote"
  | .Heart => "icon-heart"

/-- The `.and_then(|t| t.trim().replace(',', "").parse().ok())` step of
`parse_tweet_stat` (u64 parse). -/
def parseStatText (t : String) : Option Nat :=
  rustParseUnsigned 64 (((rustTrim t).toList.filter (fun c => c ≠ ',')).asString)

/-- src/parse.rs lines 313-326: `parse_tweet_stat` — the first
`.tweet-stat > .icon-container` descendant containing the stat's icon
yields its first text node parsed as a count; every absence or parse
failure degrades to 0. -/
def parse_tweet_stat (element : Node) (stat : TweetStat) : Nat :=
  match ((selectChildSub isTweetStat isIconContainer element).filter
      (fun e => !(selectSub (hasClass stat.iconClass) e).isEmpty)).head? with
  | some e => (((textsOf e).head?.bind parseStatText).getD 0)
  | none => 0

/-- src/parse.rs lines 77-118: `parse_tweet`.  Mandatory fields fail with a
field-named `Parse` error; optional fields degrade to empty/false/0.  (The
source's struct literal omits the `video` field of `Tweet`; it is modelled
as `none`, the only well-typed completion.) -/
def parse_tweet (element : Node) : Except NitterError Tweet := do
  let full_name ← parse_tweet_full_name element
  let screen_name ← parse_tweet_screen_name element
  let id_str ← parse_tweet_id_str element
  let id ← match rustParseUnsigned 128 id_str with
    | some n => Except.ok n
    | none => Except.error (.Parse ("invalid id " ++ id_str))
  let full_text ← parse_tweet_body element
  let links ← parse_links element
  let images := parse_tweet_images element
  let timeParts ← parse_tweet_time element
  let retweet := parse_tweet_retweet element
  let reply := parse_tweet_reply element
  let quote := parse_tweet_quote element
  let pinned := parse_tweet_pinned element
  let stats : Stats :=
    { comment := parse_tweet_stat element .Comment,
      retweet := parse_tweet_stat element .Retweet,
      quote := parse_tweet_stat element .Quote,
      heart := parse_tweet_stat element .Heart }
  let user : User := { screen_name := screen_name, full_name := full_name }
  .ok
    { id := id, id_str := id_str, created_at := timeParts.1,
      created_at_ts := timeParts.2, user := user, full_text := full_text,
      links := links, images := images, video := none, retweet := retweet,
      reply := reply, quote := quote, pinned := pinned, stats := stats }

/-- src/parse.rs lines 328-341: `parse_cursor` — the LAST
`.show-more:not(.timeline-item) a` descendant's href becomes `More`;
absence (of the element or its href) is `End`. -/
def parse_cursor (element : Node) : NitterCursor :=
  match ((selectDescSub isShowMoreNotTimeline isA element).getLast?).bind (attrOf "href") with
  | some c => .More c
  | none => .End

/-- src/parse.rs lines 120-124: `main_tweet` — the first
`div.main-tweet > .timeline-item` descendant.  The source unwraps the
option (panicking when absent); the `none` case records that panic. -/
def main_tweet (element : Node) : Option Node :=
  (selectChildSub isMainTweetDiv (fun n => hasClass "timeline-item" n) element).head?

/-- src/parse.rs lines 13-56: `parse_nitter_html`.  Terminal account states
are detected first (protected, then suspended, then not-found), skipping
extraction; otherwise quotes are stripped destructively, every timeline
item is extracted, and the pagination cursor is located, all on the
stripped document. -/
def parse_nitter_html (doc : Node) : Except NitterError (List Tweet × NitterCursor) :=
  if parse_protected doc then .error .ProtectedAccount
  else if parse_suspended doc then .error .SuspendedAccount
  else if parse_not_found doc then .error .NotFound
  else
    let doc := stripQuotes doc
    do
      let tweets ← (selectAll isTimelineItem doc).mapM parse_tweet
      .ok (tweets, parse_cursor doc)

/-- src/parse.rs lines 58-75: `parse_nitter_single` — strips quotes, then
extracts only the main tweet, with cursor `End`.  The outer `Option` is
`none` exactly when `main_tweet`'s unwrap panics (no main-post node in the
stripped document). -/
def parse_nitter_single (doc : Node) :
    Option (Except NitterError (Tweet × NitterCursor)) :=
  let doc := stripQuotes doc
  match main_tweet doc with
  | none => none
  | some el => some ((parse_tweet el).map (fun t => (t, NitterCursor.End)))

/-! ## C7: suspended-account detection -/

/-- Follows the spec's words: "an error panel exists whose text contains a
known 'has been suspended' substring" — any error panel, full concatenated
text. -/
def specSuspendedPanel (doc : Node) : Bool :=
  (selectSub isErrorPanel doc).any
    (fun p => substrContains (String.join (textsOf p)) "has been suspended")

/-- Fixture: two error panels; only the second mentions suspension, and only
in its second text position would an earlier panel. -/
def c7doc : Node :=
  .element "html" [] [] [
    .element "body" [] [] [
      .element "div" ["error-panel"] [] [.text "something went wrong"],
      .element "div" ["error-panel"] [] [.text "This account has been suspended"]]]

/-- Fixture: a single error panel whose first text node mentions
suspension. -/
def c7docSusp : Node :=
  .element "html" [] [] [
    .element "body" [] [] [
      .element "div" ["error-panel"] [] [.text "This account has been suspended"]]]

/-- C7 counterexample: the claim's "if and only if an error panel exists
whose text contains the substring" fails — on a document without the
protected marker where a second error panel's text contains
"has been suspended", the parser does NOT return the Suspended error (it
only ever inspects the first text node of the first error panel) and
instead parses the page normally. -/
theorem c7_counterexample :
    parse_protected c7doc = false ∧
    specSuspendedPanel c7doc = true ∧
    parse_nitter_html c7doc = .ok ([], .End) :=
  ⟨rfl, rfl, rfl⟩

theorem parse_tweet_full_name_parse (element : Node) (e : NitterError)
    (h : parse_tweet_full_name element = .error e) : ∃ s, e = .Parse s := by
  unfold parse_tweet_full_name at h
  rcases hx : (selectSub isFullnameLink element).head?.bind (attrOf "title") with _ | v
  · simp only [hx] at h
    exact ⟨"missing full_name", (Except.error.inj h).symm⟩
  · simp only [hx] at h
    exact Except.noConfusion h

theorem parse_tweet_screen_name_parse (element : Node) (e : NitterError)
    (h : parse_tweet_screen_name element = .error e) : ∃ s, e = .Parse s := by
  unfold parse_tweet_screen_name at h
  rcases hx : ((selectChildSub isTweetDate isA element).head?.bind (attrOf "href")).bind
      (fun l => (tweetLinkCaptures l).map (fun c => c.1)) with _ | v
  · simp only [hx] at h
    exact ⟨"missing screen_name", (Except.error.inj h).symm⟩
  · simp only [hx] at h
    exact Except.noConfusion h

theorem parse_tweet_id_str_parse (element : Node) (e : NitterError)
    (h : parse_tweet_id_str element = .error e) : ∃ s, e = .Parse s := by
  unfold parse_tweet_id_str at h
  rcases hx : ((selectChildSub isTweetDate isA element).head?.bind (attrOf "href")).bind
      (fun l => (tweetLinkCaptures l).map (fun c => c.2)) with _ | v
  · simp only [hx] at h
    exact ⟨"missing id", (Except.error.inj h).symm⟩
  · simp only [hx] at h
    exact Except.noConfusion h

theorem parse_tweet_body_parse (element : Node) (e : NitterError)
    (h : parse_tweet_body element = .error e) : ∃ s, e = .Parse s := by
  unfold parse_tweet_body at h
  rcases hx : (selectSub isTweetContent element).head? with _ | v
  · simp only [hx] at h
    exact ⟨"missing body", (Except.error.inj h).symm⟩
  · simp only [hx] at h
    exact Except.noConfusion h

theorem parse_links_parse (element : Node) (e : NitterError)
    (h : parse_links element = .error e) : ∃ s, e = .Parse s := by
  unfold parse_links at h
  rcases hx : (selectSub isTweetContent element).head? with _ | v
  · simp only [hx] at h
    exact ⟨"missing body", (Except.error.inj h).symm⟩
  · simp only [hx] at h
    exact Except.noConfusion h

theorem parse_tweet_time_parse (element : Node) (e : NitterError)
    (h : parse_tweet_time element = .error e) : ∃ s, e = .Parse s := by
  unfold parse_tweet_time at h
  rcases hx : ((selectDescSub isSpanTweetDate isA element).head?.bind (attrOf "title")).bind
      parseNitterDate with _ | v
  · simp only [hx] at h
    exact ⟨"missing time", (Except.error.inj h).symm⟩
  · rcases v with ⟨y, m, d, hh, mi⟩
    simp only [hx] at h
    exact Except.noConfusion h

/-- Every error `parse_tweet` can return is a field-named `Parse` error
(src/parse.rs lines 77-118): it never reports an account state. -/
theorem parse_tweet_error_parse (element : Node) (e : NitterError)
    (h : parse_tweet element = .error e) : ∃ s, e = .Parse s := by
  unfold parse_tweet at h
  rcases h1 : parse_tweet_full_name element with e1 | v1 <;>
    simp only [h1, bind, Except.bind] at h
  · exact (Except.error.inj h) ▸ parse_tweet_full_name_parse element e1 h1
  rcases h2 : parse_tweet_screen_name element with e2 | v2 <;>
    simp only [h2, bind, Except.bind] at h
  · exact (Except.error.inj h) ▸ parse_tweet_screen_name_parse element e2 h2
  rcases h3 : parse_tweet_id_str element with e3 | v3 <;>
    simp only [h3, bind, Except.bind] at h
  · exact (Except.error.inj h) ▸ parse_tweet_id_str_parse element e3 h3
  rcases h4 : rustParseUnsigned 128 v3 with _ | idv <;>
    simp only [h4, bind, Except.bind] at h
  · exact ⟨"invalid id " ++ v3, (Except.error.inj h).symm⟩
  rcases h5 : parse_tweet_body element with e5 | v5 <;>
    simp only [h5, bind, Except.bind] at h
  · exact (Except.error.inj h) ▸ parse_tweet_body_parse element e5 h5
  rcases h6 : parse_links element with e6 | v6 <;>
    simp only [h6, bind, Except.bind] at h
  · exact (Except.error.inj h) ▸ parse_links_parse element e6 h6
  rcases h7 : parse_tweet_time element with e7 | v7 <;>
    simp only [h7, bind, Except.bind] at h
  · exact (Except.error.inj h) ▸ parse_tweet_time_parse element e7 h7
  · exact Except.noConfusion h

/-- Extracting a list of tweets can only fail with a `Parse` error. -/
theorem mapM_parse_tweet_error (l : List Node) :
    ∀ e : NitterError, l.mapM parse_tweet = .error e → ∃ s, e = .Parse s := by
  induction l with
  | nil =>
    intro e h
    rw [List.mapM_nil] at h
    simp [pure, Except.pure] at h
  | cons x xs ih =>
    intro e h
    rw [List.mapM_cons] at h
    rcases hx : parse_tweet x with ex | y <;>
      simp only [hx, bind, Except.bind] at h
    · exact (Except.error.inj h) ▸ parse_tweet_error_parse x ex hx
    rcases hxs : xs.mapM parse_tweet with exs | ys <;>
      simp only [hxs, bind, Except.bind] at h
    · exact (Except.error.inj h) ▸ ih exs hxs
    · simp [pure, Except.pure] at h

/-- C7 (amended): for every document in which the protected-account marker
is absent, the parser returns the Suspended error **iff the FIRST error
panel's FIRST text node** contains "has been suspended" (an error panel
elsewhere, or the substring outside the first text node, is not
inspected); when it does, the result is that error and no post extraction
is performed. -/
theorem c7_suspended_detection (doc : Node)
    (hprot : parse_protected doc = false) :
    parse_nitter_html doc = .error .SuspendedAccount ↔
      (((selectSub isErrorPanel doc).head?.bind (fun el => (textsOf el).head?)).map
        (fun t => substrContains t "has been suspended")) = some true := by
  unfold parse_nitter_html
  simp only [hprot, Bool.false_eq_true, if_false, ite_false]
  by_cases hs : parse_suspended doc
  · have hs' := hs
    unfold parse_suspended at hs'
    rw [beq_iff_eq] at hs'
    simp only [hs, if_true]
    exact ⟨fun _ => hs', fun _ => trivial⟩
  · have hs' : ¬ ((((selectSub isErrorPanel doc).head?.bind
        (fun el => (textsOf el).head?)).map
          (fun t => substrContains t "has been suspended")) = some true) := by
      intro hc
      exact hs (by unfold parse_suspended; rw [beq_iff_eq]; exact hc)
    simp only [hs, Bool.false_eq_true, if_false, ite_false]
    constructor
    · intro hres
      by_cases hnf : parse_not_found doc
      · simp only [hnf, if_true] at hres
        exact NitterError.noConfusion (Except.error.inj hres)
      · simp only [hnf, Bool.false_eq_true, if_false, ite_false] at hres
        rcases hm : (selectAll isTimelineItem (stripQuotes doc)).mapM parse_tweet with em | ts <;>
          simp only [hm, bind, Except.bind] at hres
        · obtain ⟨s, rfl⟩ := mapM_parse_tweet_error _ em hm
          exact NitterError.noConfusion (Except.error.inj hres)
        · exact Except.noConfusion hres
    · intro hc
      exact absurd hc hs'

/-- C7 witness: a document whose single error panel's first text node
contains the substring is reported Suspended by the amended theorem. -/
theorem c7_suspended_detection_witness :
    parse_protected c7docSusp = false ∧
    parse_nitter_html c7docSusp = .error .SuspendedAccount :=
  ⟨rfl, (c7_suspended_detection c7docSusp rfl).mpr rfl⟩

/-! ## C8: cursor monotonicity -/

/-- Position of a cursor along the Initial → More* → End order. -/
def cursorRank : NitterCursor → Nat
  | .Initial => 0
  | .More _ => 1
  | .End => 2

/-- `parse_cursor` only ever produces `More` or `End` (src/parse.rs lines
328-341): a parsed page never resets the cursor to `Initial`. -/
theorem parse_cursor_ne_initial (element : Node) : parse_cursor element ≠ .Initial := by
  unfold parse_cursor
  rcases hx : ((selectDescSub isShowMoreNotTimeline isA element).getLast?).bind
      (attrOf "href") with _ | c <;> simp [hx]

/-- A successful page parse returns exactly the cursor located by
`parse_cursor` on the stripped document. -/
theorem parse_nitter_html_cursor (doc : Node) (ts : List Tweet) (c : NitterCursor)
    (h : parse_nitter_html doc = .ok (ts, c)) :
    c = parse_cursor (stripQuotes doc) := by
  unfold parse_nitter_html at h
  by_cases h1 : parse_protected doc
  · simp only [h1, if_true] at h
    exact Except.noConfusion h
  by_cases h2 : parse_suspended doc
  · simp only [h1, h2, Bool.false_eq_true, if_false, ite_false, if_true] at h
    exact Except.noConfusion h
  by_cases h3 : parse_not_found doc
  · simp only [h1, h2, h3, Bool.false_eq_true, if_false, ite_false, if_true] at h
    exact Except.noConfusion h
  simp only [h1, h2, h3, Bool.false_eq_true, if_false, ite_false] at h
  rcases hm : (selectAll isTimelineItem (stripQuotes doc)).mapM parse_tweet with em | ts' <;>
    simp only [hm, bind, Except.bind] at h
  · exact Except.noConfusion h
  · have := Except.ok.inj h
    exact ((Prod.mk.injEq .. ▸ this).2).symm

/-- From a state whose cursor is `End`, the stream never issues another
fetch: the run does not depend on the oracle at all. -/
theorem runAux_end_no_fetch (cfg : Config) :
    ∀ (errored : Bool) (count : Nat) (tweets : List Tweet) (cursor : NitterCursor)
    (pinned : Option Tweet) (pages : List PageResult), cursor = .End →
    runAux cfg errored count tweets cursor pinned pages =
      runAux cfg errored count tweets cursor pinned [] := by
  intro errored count tweets cursor pinned pages
  induction errored, count, tweets, cursor, pinned, pages using runAux.induct cfg with
  | case1 count tweets cursor pinned pages =>
    intro _
    rw [runAux_true, runAux_true]
  | case2 errored count tweets cursor pinned pages h1 h2 =>
    simp only [Bool.not_eq_true, Bool.not_eq_false] at h1 h2
    subst h1
    intro _
    rw [runAux_limit _ _ _ _ _ _ h2, runAux_limit _ _ _ _ _ _ h2]
  | case3 errored count cursor pinned pages h1 h2 t rest hd ih =>
    simp only [Bool.not_eq_true, Bool.not_eq_false] at h1 h2
    subst h1
    intro hE
    rw [runAux_normal _ _ _ _ _ _ _ h2 hd, runAux_normal _ _ _ _ _ _ _ h2 hd, ih hE]
  | case4 errored count cursor pages h1 h2 t rest p hd ih =>
    simp only [Bool.not_eq_true, Bool.not_eq_false] at h1 h2
    subst h1
    intro hE
    rw [runAux_pinned _ _ _ _ _ _ _ h2 hd, runAux_pinned _ _ _ _ _ _ _ h2 hd, ih hE]
  | case5 errored count cursor pages h1 h2 t rest hd =>
    simp only [Bool.not_eq_true, Bool.not_eq_false] at h1 h2
    subst h1
    intro _
    rw [runAux_pinned_none _ _ _ _ _ _ h2 hd, runAux_pinned_none _ _ _ _ _ _ h2 hd]
  | case6 errored count cursor pages h1 h2 t rest p hd ih =>
    simp only [Bool.not_eq_true, Bool.not_eq_false] at h1 h2
    subst h1
    intro hE
    rw [runAux_break_some _ _ _ _ _ _ _ h2 hd, runAux_break_some _ _ _ _ _ _ _ h2 hd, ih hE]
  | case7 errored count cursor pages h1 h2 t rest hd =>
    simp only [Bool.not_eq_true, Bool.not_eq_false] at h1 h2
    subst h1
    intro _
    rw [runAux_break_none _ _ _ _ _ _ h2 hd, runAux_break_none _ _ _ _ _ _ h2 hd]
  | case8 errored count pages h1 h2 p ih =>
    simp only [Bool.not_eq_true, Bool.not_eq_false] at h1 h2
    subst h1
    intro hE
    rw [runAux_end_some _ _ _ _ h2, runAux_end_some _ _ _ _ h2, ih rfl]
  | case9 errored count pages h1 h2 =>
    simp only [Bool.not_eq_true, Bool.not_eq_false] at h1 h2
    subst h1
    intro _
    rw [runAux_end_none _ _ _ h2, runAux_end_none _ _ _ h2]
  | case10 errored count cursor pinned h1 h2 hcur =>
    intro hE
    exact absurd hE (fun hE => hcur hE)
  | case11 errored count cursor pinned h1 h2 pg ps cursor' pinned' ts hscrape hcur ih =>
    intro hE
    exact absurd hE (fun hE => hcur hE)
  | case12 errored count cursor pinned h1 h2 pg ps cursor' pinned' e0 hscrape hacc hcur =>
    intro hE
    exact absurd hE (fun hE => hcur hE)
  | case13 errored count cursor pinned h1 h2 pg ps cursor' pinned' e0 hscrape hacc hcur ih =>
    intro hE
    exact absurd hE (fun hE => hcur hE)

/-- C8: cursor monotonicity.  (a) A parsed page's cursor is never
`Initial`; (b) `scrape_page` never decreases the cursor's rank along
Initial → More* → End when fed such a page; (c) from an `End` cursor the
cursor stays `End`; and (d) once the cursor is `End` the stream issues no
further network fetch (the run is independent of the oracle). -/
theorem c8_cursor_monotone :
    (∀ (doc : Node) (ts : List Tweet) (c : NitterCursor),
        parse_nitter_html doc = .ok (ts, c) → c ≠ .Initial) ∧
    (∀ (cfg : Config) (cursor : NitterCursor) (pinned : Option Tweet) (page : PageResult),
        (∀ (ts : List Tweet) (c : NitterCursor), page = .ok (ts, c) → c ≠ .Initial) →
        cursorRank cursor ≤ cursorRank (scrapePage cfg cursor pinned page).1) ∧
    (∀ (cfg : Config) (cursor : NitterCursor) (pinned : Option Tweet) (page : PageResult),
        cursor = .End → (scrapePage cfg cursor pinned page).1 = .End) ∧
    (∀ (cfg : Config) (errored : Bool) (count : Nat) (tweets : List Tweet)
        (pinned : Option Tweet) (pages : List PageResult),
        runAux cfg errored count tweets .End pinned pages =
          runAux cfg errored count tweets .End pinned []) := by
  refine ⟨?_, ?_, ?_, ?_⟩
  · intro doc ts c h
    rw [parse_nitter_html_cursor doc ts c h]
    exact parse_cursor_ne_initial _
  · intro cfg cursor pinned page hpage
    rcases page with e | ⟨ts, nc⟩ <;> cases cursor <;> unfold scrapePage
    case error.End | ok.mk.End => exact le_refl _
    case error.Initial | error.More => exact le_refl _
    all_goals
      have hnc : nc ≠ .Initial := hpage ts nc rfl
      by_cases hr : cfg.reorder_pinned <;>
        simp only [hr, if_true, Bool.false_eq_true, if_false, ite_false] <;>
        cases nc <;> simp [cursorRank] at hnc ⊢
  · intro cfg cursor pinned page hE
    subst hE
    rfl
  · intro cfg errored count tweets pinned pages
    exact runAux_end_no_fetch cfg errored count tweets .End pinned pages rfl

/-- C8 witness: the monotonicity conjuncts applied at concrete inputs — a
page whose "show more" control carries a continuation token parses to a
`More` cursor (never `Initial`), scraping it from `Initial` advances the
rank, and an `End`-cursor run ignores the oracle. -/
theorem c8_cursor_monotone_witness :
    ((NitterCursor.More "?cursor=abc") ≠ NitterCursor.Initial) ∧
    cursorRank .Initial ≤
      cursorRank (scrapePage ⟨none, false, false, none⟩ .Initial none
        (.ok ([], .More "?cursor=abc"))).1 ∧
    runAux ⟨none, false, false, none⟩ false 0 [] .End none
        [.ok ([mkTweet 1 1 false false], .End)] =
      runAux ⟨none, false, false, none⟩ false 0 [] .End none [] := by
  refine ⟨?_, ?_, ?_⟩
  · exact c8_cursor_monotone.1 (.element "html" [] [] [.element "div" ["show-more"] [] [
      .element "a" [] [("href", "?cursor=abc")] []]]) [] (.More "?cursor=abc") rfl
  · exact c8_cursor_monotone.2.1 ⟨none, false, false, none⟩ .Initial none
      (.ok ([], .More "?cursor=abc"))
      (fun ts c h => by
        have := Except.ok.inj h
        have hc := (Prod.mk.injEq .. ▸ this).2
        rw [← hc]
        simp)
  · exact c8_cursor_monotone.2.2.2 ⟨none, false, false, none⟩ false 0 [] none
      [.ok ([mkTweet 1 1 false false], .End)]

/-! ## C10: the single-post parse mode is partial -/

theorem stripQuotes_element (t : String) (c : List String)
    (a : List (String × String)) (ch : List Node) :
    stripQuotes (.element t c a ch) =
      .element t c a (stripQuotesL (decide ("quote" ∈ c)) ch) := by
  rw [stripQuotes]

mutual

/-- Quote stripping cannot create a `div.main-tweet > .timeline-item` pair:
if one exists in the stripped subtree, one exists in the original. -/
theorem mainPair_strip_node : ∀ (n : Node) (flag : Bool),
    selectChild isMainTweetDiv (fun m => hasClass "timeline-item" m) flag
      (stripQuotes n) ≠ [] →
    selectChild isMainTweetDiv (fun m => hasClass "timeline-item" m) flag n ≠ []
  | .element t c a ch, flag => by
    intro h hc
    rw [stripQuotes_element] at h
    simp only [selectChild, hasClass, isMainTweetDiv, tagOf] at h hc
    rw [List.append_eq_nil] at hc
    obtain ⟨hc1, hc2⟩ := hc
    have hcond : (flag && decide ("timeline-item" ∈ c)) = false := by
      by_contra hcc
      rw [Bool.not_eq_false] at hcc
      simp [hcc] at hc1
    apply h
    rw [List.append_eq_nil]
    constructor
    · simp [hcond]
    · by_contra hne
      exact mainPair_strip_list ch (decide ("quote" ∈ c))
        (t == "div" && decide ("main-tweet" ∈ c)) hne hc2
  | .text s, flag => by
    intro h
    exact absurd rfl h

theorem mainPair_strip_list : ∀ (ch : List Node) (pq flag : Bool),
    selectChildL isMainTweetDiv (fun m => hasClass "timeline-item" m) flag
      (stripQuotesL pq ch) ≠ [] →
    selectChildL isMainTweetDiv (fun m => hasClass "timeline-item" m) flag ch ≠ []
  | [], pq, flag => by
    intro h
    exact absurd rfl h
  | x :: xs, pq, flag => by
    intro h hc
    rw [selectChildL, List.append_eq_nil] at hc
    rw [stripQuotesL] at h
    by_cases hk : pq && !keepQuoteChild x
    · rw [if_pos hk] at h
      exact mainPair_strip_list xs pq flag h hc.2
    · rw [if_neg hk] at h
      rw [selectChildL] at h
      by_cases hx : selectChild isMainTweetDiv (fun m => hasClass "timeline-item" m) flag
          (stripQuotes x) = []
      · have htail : selectChildL isMainTweetDiv (fun m => hasClass "timeline-item" m) flag
            (stripQuotesL pq xs) ≠ [] := by
          intro h0
          apply h
          rw [hx, h0]
          rfl
        exact mainPair_strip_list xs pq flag htail hc.2
      · exact mainPair_strip_node x flag hx hc.1

end

/-- `selectChildSub` on a stripped document is nonempty only if it is
nonempty on the original. -/
theorem mainPair_strip_sub (doc : Node)
    (h : selectChildSub isMainTweetDiv (fun m => hasClass "timeline-item" m)
      (stripQuotes doc) ≠ []) :
    selectChildSub isMainTweetDiv (fun m => hasClass "timeline-item" m) doc ≠ [] := by
  cases doc with
  | element t c a ch =>
    rw [stripQuotes_element] at h
    rw [selectChildSub] at h ⊢
    exact mainPair_strip_list ch _ _ h
  | text s =>
    rw [stripQuotes] at h
    exact absurd rfl h

/-- C10: the single-post parse mode is partial at its public interface.
(a) For every document that contains no main-post node (no `.timeline-item`
element that is a child of a `div.main-tweet`), `parse_nitter_single`
panics — modelled as `none` — instead of returning a `Parse` error;
(b) it returns (normally or with a field error) only when such a node is
present; (c) the panic happens exactly when `main_tweet`'s lookup on the
stripped document comes up empty. -/
theorem c10_single_mode_partial :
    (∀ doc : Node,
        selectChildSub isMainTweetDiv (fun m => hasClass "timeline-item" m) doc = [] →
        parse_nitter_single doc = none) ∧
    (∀ (doc : Node) (r : Except NitterError (Tweet × NitterCursor)),
        parse_nitter_single doc = some r →
        selectChildSub isMainTweetDiv (fun m => hasClass "timeline-item" m) doc ≠ []) ∧
    (∀ doc : Node, parse_nitter_single doc = none ↔ main_tweet (stripQuotes doc) = none) := by
  have hnone : ∀ doc : Node, parse_nitter_single doc = none ↔
      main_tweet (stripQuotes doc) = none := by
    intro doc
    unfold parse_nitter_single
    rcases hmt : main_tweet (stripQuotes doc) with _ | el <;> simp [hmt]
  refine ⟨?_, ?_, hnone⟩
  · intro doc hempty
    rw [hnone doc]
    unfold main_tweet
    rw [List.head?_eq_none_iff]
    by_contra hne
    exact absurd hempty (mainPair_strip_sub doc hne)
  · intro doc r hsome hempty
    have : parse_nitter_single doc = none := by
      rw [hnone doc]
      unfold main_tweet
      rw [List.head?_eq_none_iff]
      by_contra hne
      exact absurd hempty (mainPair_strip_sub doc hne)
    rw [this] at hsome
    exact Option.noConfusion hsome

/-- C10 witness: a document with error panels but no main-post node makes
the single-post mode panic (`none`), not return a `Parse` error. -/
theorem c10_single_mode_partial_witness :
    parse_nitter_single c7doc = none :=
  c10_single_mode_partial.1 c7doc rfl

/-! ## C9: quote stripping — subtree and href bookkeeping -/

mutual

/-- All nodes of a subtree (the node itself included), document order. -/
def subNodes : Node → List Node
  | .element t c a ch => .element t c a ch :: subNodesL ch
  | .text s => [.text s]

def subNodesL : List Node → List Node
  | [] => []
  | n :: ns => subNodes n ++ subNodesL ns

end

mutual

/-- The href attributes of all `a` elements of a subtree. -/
def aHrefs : Node → List String
  | .element t c a ch =>
    (if t == "a" then (a.lookup "href").toList else []) ++ aHrefsL ch
  | .text _ => []

def aHrefsL : List Node → List String
  | [] => []
  | n :: ns => aHrefs n ++ aHrefsL ns

end

mutual

/-- The href attributes of `a` elements of the ORIGINAL document located at
positions that survive quote stripping: positions inside a removed quote
child (an element child of a `.quote` element lacking the `quote-link`
class) are skipped.  An href occurring ONLY at removed positions is
excluded from this list. -/
def keptAHrefs (inRemoved : Bool) : Node → List String
  | .element t c a ch =>
    (if !inRemoved && t == "a" then (a.lookup "href").toList else []) ++
      keptAHrefsL (decide ("quote" ∈ c)) inRemoved ch
  | .text _ => []

def keptAHrefsL (parentQuote inRemoved : Bool) : List Node → List String
  | [] => []
  | n :: ns =>
    keptAHrefs (inRemoved || (parentQuote && !keepQuoteChild n)) n ++
      keptAHrefsL parentQuote inRemoved ns

end

mutual

/-- Follows the spec's words for "quoted content": the href attributes of
`a` elements NOT lying inside any `.quote` subtree (the quote element
itself included in "quoted content").  An href absent from this list occurs
only inside quoted content. -/
def hrefsOutsideQuotes (inQuote : Bool) : Node → List String
  | .element t c a ch =>
    (if !(inQuote || decide ("quote" ∈ c)) && t == "a" then (a.lookup "href").toList
     else []) ++ hrefsOutsideQuotesL (inQuote || decide ("quote" ∈ c)) ch
  | .text _ => []

def hrefsOutsideQuotesL (inQuote : Bool) : List Node → List String
  | [] => []
  | n :: ns => hrefsOutsideQuotes inQuote n ++ hrefsOutsideQuotesL inQuote ns

end

mutual

/-- Selected nodes are subtree nodes. -/
theorem selectAll_subNodes : ∀ (p : Node → Bool) (n m : Node),
    m ∈ selectAll p n → m ∈ subNodes n
  | p, .element t c a ch, m => by
    intro h
    rw [selectAll] at h
    rw [subNodes]
    rcases List.mem_append.mp h with h' | h'
    · rcases hp : p (.element t c a ch) <;> rw [hp] at h' <;> simp at h'
      subst h'
      exact List.mem_cons_self _ _
    · exact List.mem_cons.mpr (Or.inr (selectAllL_subNodes p ch m h'))
  | p, .text s, m => by
    intro h
    rw [selectAll] at h
    exact absurd h (List.not_mem_nil m)

theorem selectAllL_subNodes : ∀ (p : Node → Bool) (l : List Node) (m : Node),
    m ∈ selectAllL p l → m ∈ subNodesL l
  | p, [], m => by
    intro h
    rw [selectAllL] at h
    exact absurd h (List.not_mem_nil m)
  | p, n :: ns, m => by
    intro h
    rw [selectAllL] at h
    rw [subNodesL]
    rcases List.mem_append.mp h with h' | h'
    · exact List.mem_append.mpr (Or.inl (selectAll_subNodes p n m h'))
    · exact List.mem_append.mpr (Or.inr (selectAllL_subNodes p ns m h'))

end

/-- `ElementRef::select` results are subtree nodes. -/
theorem selectSub_subNodes (p : Node → Bool) (n m : Node)
    (h : m ∈ selectSub p n) : m ∈ subNodes n := by
  cases n with
  | element t c a ch =>
    rw [selectSub] at h
    rw [subNodes]
    exact List.mem_cons.mpr (Or.inr (selectAllL_subNodes p ch m h))
  | text s =>
    rw [selectSub] at h
    exact absurd h (List.not_mem_nil m)

mutual

/-- Selected nodes satisfy the selector. -/
theorem selectAll_pred : ∀ (p : Node → Bool) (n m : Node),
    m ∈ selectAll p n → p m = true
  | p, .element t c a ch, m => by
    intro h
    rw [selectAll] at h
    rcases List.mem_append.mp h with h' | h'
    · rcases hp : p (.element t c a ch) <;> rw [hp] at h' <;> simp at h'
      rw [h']
      exact hp
    · exact selectAllL_pred p ch m h'
  | p, .text s, m => by
    intro h
    rw [selectAll] at h
    exact absurd h (List.not_mem_nil m)

theorem selectAllL_pred : ∀ (p : Node → Bool) (l : List Node) (m : Node),
    m ∈ selectAllL p l → p m = true
  | p, [], m => by
    intro h
    rw [selectAllL] at h
    exact absurd h (List.not_mem_nil m)
  | p, n :: ns, m => by
    intro h
    rw [selectAllL] at h
    rcases List.mem_append.mp h with h' | h'
    · exact selectAll_pred p n m h'
    · exact selectAllL_pred p ns m h'

end

mutual

/-- Subtree membership is transitive. -/
theorem subNodes_trans : ∀ (n m k : Node), m ∈ subNodes n → k ∈ subNodes m → k ∈ subNodes n
  | .element t c a ch, m, k => by
    intro hm hk
    rw [subNodes] at hm ⊢
    rcases List.mem_cons.mp hm with h' | h'
    · subst h'
      rw [subNodes] at hk
      exact hk
    · exact List.mem_cons.mpr (Or.inr (subNodesL_trans ch m k h' hk))
  | .text s, m, k => by
    intro hm hk
    rw [subNodes] at hm
    rcases List.mem_cons.mp hm with h' | h'
    · subst h'
      rw [subNodes] at hk
      exact hk
    · exact absurd h' (List.not_mem_nil m)

theorem subNodesL_trans : ∀ (l : List Node) (m k : Node),
    m ∈ subNodesL l → k ∈ subNodes m → k ∈ subNodesL l
  | [], m, k => by
    intro hm _
    rw [subNodesL] at hm
    exact absurd hm (List.not_mem_nil m)
  | n :: ns, m, k => by
    intro hm hk
    rw [subNodesL] at hm ⊢
    rcases List.mem_append.mp hm with h' | h'
    · exact List.mem_append.mpr (Or.inl (subNodes_trans n m k h' hk))
    · exact List.mem_append.mpr (Or.inr (subNodesL_trans ns m k h' hk))

end

mutual

/-- The href of any `a` element of a subtree is in `aHrefs`. -/
theorem subNodes_aHrefs : ∀ (n m : Node) (l : String), m ∈ subNodes n →
    tagOf m = "a" → attrOf "href" m = some l → l ∈ aHrefs n
  | .element t c a ch, m, l => by
    intro hm htag hattr
    rw [subNodes] at hm
    rw [aHrefs]
    rcases List.mem_cons.mp hm with h' | h'
    · subst h'
      rw [tagOf] at htag
      rw [attrOf] at hattr
      subst htag
      apply List.mem_append.mpr
      left
      simp [hattr]
    · exact List.mem_append.mpr (Or.inr (subNodesL_aHrefs ch m l h' htag hattr))
  | .text s, m, l => by
    intro hm htag hattr
    rw [subNodes] at hm
    rcases List.mem_cons.mp hm with h' | h'
    · subst h'
      rw [attrOf] at hattr
      exact Option.noConfusion hattr
    · exact absurd h' (List.not_mem_nil m)

theorem subNodesL_aHrefs : ∀ (ns : List Node) (m : Node) (l : String), m ∈ subNodesL ns →
    tagOf m = "a" → attrOf "href" m = some l → l ∈ aHrefsL ns
  | [], m, l => by
    intro hm _ _
    rw [subNodesL] at hm
    exact absurd hm (List.not_mem_nil m)
  | n :: ns, m, l => by
    intro hm htag hattr
    rw [subNodesL] at hm
    rw [aHrefsL]
    rcases List.mem_append.mp hm with h' | h'
    · exact List.mem_append.mpr (Or.inl (subNodes_aHrefs n m l h' htag hattr))
    · exact List.mem_append.mpr (Or.inr (subNodesL_aHrefs ns m l h' htag hattr))

end

mutual

/-- Descendant-combinator selections are subtree nodes satisfying the
descendant predicate. -/
theorem selectDesc_subNodes : ∀ (pa pd : Node → Bool) (inside : Bool) (n m : Node),
    m ∈ selectDesc pa pd inside n → m ∈ subNodes n ∧ pd m = true
  | pa, pd, inside, .element t c a ch, m => by
    intro h
    rw [selectDesc] at h
    rw [subNodes]
    rcases List.mem_append.mp h with h' | h'
    · rcases hp : inside && pd (.element t c a ch) <;> rw [hp] at h' <;> simp at h'
      subst h'
      exact ⟨List.mem_cons_self _ _, (Bool.and_eq_true .. ▸ hp).2⟩
    · obtain ⟨hmem, hpd⟩ := selectDescL_subNodes pa pd _ ch m h'
      exact ⟨List.mem_cons.mpr (Or.inr hmem), hpd⟩
  | pa, pd, inside, .text s, m => by
    intro h
    rw [selectDesc] at h
    exact absurd h (List.not_mem_nil m)

theorem selectDescL_subNodes : ∀ (pa pd : Node → Bool) (inside : Bool) (ns : List Node)
    (m : Node), m ∈ selectDescL pa pd inside ns → m ∈ subNodesL ns ∧ pd m = true
  | pa, pd, inside, [], m => by
    intro h
    rw [selectDescL] at h
    exact absurd h (List.not_mem_nil m)
  | pa, pd, inside, n :: ns, m => by
    intro h
    rw [selectDescL] at h
    rw [subNodesL]
    rcases List.mem_append.mp h with h' | h'
    · obtain ⟨hmem, hpd⟩ := selectDesc_subNodes pa pd inside n m h'
      exact ⟨List.mem_append.mpr (Or.inl hmem), hpd⟩
    · obtain ⟨hmem, hpd⟩ := selectDescL_subNodes pa pd inside ns m h'
      exact ⟨List.mem_append.mpr (Or.inr hmem), hpd⟩

end

/-- `selectDescSub` results are subtree nodes satisfying the descendant
predicate. -/
theorem selectDescSub_subNodes (pa pd : Node → Bool) (n m : Node)
    (h : m ∈ selectDescSub pa pd n) : m ∈ subNodes n ∧ pd m = true := by
  cases n with
  | element t c a ch =>
    rw [selectDescSub] at h
    obtain ⟨hmem, hpd⟩ := selectDescL_subNodes pa pd _ ch m h
    rw [subNodes]
    exact ⟨List.mem_cons.mpr (Or.inr hmem), hpd⟩
  | text s =>
    rw [selectDescSub] at h
    exact absurd h (List.not_mem_nil m)

mutual

/-- Every `a`-element href of the STRIPPED document occurs at a kept
position of the original: quote stripping admits no href from a removed
quote child. -/
theorem aHrefs_strip_kept : ∀ (n : Node) (l : String),
    l ∈ aHrefs (stripQuotes n) → l ∈ keptAHrefs false n
  | .element t c a ch, l => by
    intro h
    rw [stripQuotes_element] at h
    rw [aHrefs] at h
    rw [keptAHrefs]
    rcases List.mem_append.mp h with h' | h'
    · apply List.mem_append.mpr
      left
      simpa using h'
    · exact List.mem_append.mpr (Or.inr (aHrefsL_strip_kept ch (decide ("quote" ∈ c)) l h'))
  | .text s, l => by
    intro h
    rw [stripQuotes] at h
    rw [aHrefs] at h
    exact absurd h (List.not_mem_nil l)

theorem aHrefsL_strip_kept : ∀ (ch : List Node) (pq : Bool) (l : String),
    l ∈ aHrefsL (stripQuotesL pq ch) → l ∈ keptAHrefsL pq false ch
  | [], pq, l => by
    intro h
    rw [stripQuotesL] at h
    rw [aHrefsL] at h
    exact absurd h (List.not_mem_nil l)
  | x :: xs, pq, l => by
    intro h
    rw [stripQuotesL] at h
    rw [keptAHrefsL]
    by_cases hk : pq && !keepQuoteChild x
    · rw [if_pos hk] at h
      exact List.mem_append.mpr (Or.inr (aHrefsL_strip_kept xs pq l h))
    · rw [if_neg hk] at h
      rw [aHrefsL] at h
      rcases List.mem_append.mp h with h' | h'
      · apply List.mem_append.mpr
        left
        have hflag : (false || (pq && !keepQuoteChild x)) = false := by
          simp only [Bool.false_or]
          exact Bool.not_eq_true _ ▸ hk
        rw [hflag]
        exact aHrefs_strip_kept x l h'
      · exact List.mem_append.mpr (Or.inr (aHrefsL_strip_kept xs pq l h'))

end

/-- The head of a list is a member. -/
theorem head?_mem {α : Type} (xs : List α) (b : α) (h : xs.head? = some b) : b ∈ xs := by
  cases xs with
  | nil => exact Option.noConfusion h
  | cons x xs =>
    rw [List.head?_cons] at h
    rw [Option.some.inj h]
    exact List.mem_cons_self _ _

/-- `ElementRef::select` results satisfy the selector. -/
theorem selectSub_pred (p : Node → Bool) (n m : Node)
    (h : m ∈ selectSub p n) : p m = true := by
  cases n with
  | element t c a ch =>
    rw [selectSub] at h
    exact selectAllL_pred p ch m h
  | text s =>
    rw [selectSub] at h
    exact absurd h (List.not_mem_nil m)

/-- Inversion of a successful `parse_tweet`: the links come from
`parse_links` and the images from `parse_tweet_images`, both on the same
(stripped) element. -/
theorem parse_tweet_ok_fields (el : Node) (t : Tweet) (h : parse_tweet el = .ok t) :
    parse_links el = .ok t.links ∧ t.images = parse_tweet_images el := by
  unfold parse_tweet at h
  rcases h1 : parse_tweet_full_name el with e1 | v1 <;>
    simp only [h1, bind, Except.bind] at h
  · exact Except.noConfusion h
  rcases h2 : parse_tweet_screen_name el with e2 | v2 <;>
    simp only [h2, bind, Except.bind] at h
  · exact Except.noConfusion h
  rcases h3 : parse_tweet_id_str el with e3 | v3 <;>
    simp only [h3, bind, Except.bind] at h
  · exact Except.noConfusion h
  rcases h4 : rustParseUnsigned 128 v3 with _ | idv <;>
    simp only [h4, bind, Except.bind] at h
  · exact Except.noConfusion h
  rcases h5 : parse_tweet_body el with e5 | v5 <;>
    simp only [h5, bind, Except.bind] at h
  · exact Except.noConfusion h
  rcases h6 : parse_links el with e6 | v6 <;>
    simp only [h6, bind, Except.bind] at h
  · exact Except.noConfusion h
  rcases h7 : parse_tweet_time el with e7 | v7 <;>
    simp only [h7, bind, Except.bind] at h
  · exact Except.noConfusion h
  have ht := Except.ok.inj h
  subst ht
  exact ⟨rfl, rfl⟩

/-- Inversion of a successful `mapM`: every produced tweet comes from some
input element. -/
theorem mapM_ok_mem (l : List Node) (ys : List Tweet)
    (h : l.mapM parse_tweet = .ok ys) :
    ∀ y ∈ ys, ∃ x ∈ l, parse_tweet x = .ok y := by
  induction l generalizing ys with
  | nil =>
    rw [List.mapM_nil] at h
    intro y hy
    have : ys = [] := (Except.ok.inj h).symm
    subst this
    exact absurd hy (List.not_mem_nil y)
  | cons x xs ih =>
    rw [List.mapM_cons] at h
    rcases hx : parse_tweet x with ex | y0 <;>
      simp only [hx, bind, Except.bind] at h
    · exact Except.noConfusion h
    rcases hxs : xs.mapM parse_tweet with exs | ys0 <;>
      simp only [hxs, bind, Except.bind] at h
    · exact Except.noConfusion h
    have : ys = y0 :: ys0 := (Except.ok.inj h).symm
    subst this
    intro y hy
    rcases List.mem_cons.mp hy with h' | h'
    · exact ⟨x, List.mem_cons_self _ _, h' ▸ hx⟩
    · obtain ⟨x', hx', hok⟩ := ih ys0 hxs y h'
      exact ⟨x', List.mem_cons.mpr (Or.inr hx'), hok⟩

/-- A successful page parse extracts exactly the timeline items of the
stripped document. -/
theorem parse_nitter_html_tweets (doc : Node) (ts : List Tweet) (c : NitterCursor)
    (h : parse_nitter_html doc = .ok (ts, c)) :
    (selectAll isTimelineItem (stripQuotes doc)).mapM parse_tweet = .ok ts := by
  unfold parse_nitter_html at h
  by_cases h1 : parse_protected doc
  · simp only [h1, if_true] at h
    exact Except.noConfusion h
  by_cases h2 : parse_suspended doc
  · simp only [h1, h2, Bool.false_eq_true, if_false, ite_false, if_true] at h
    exact Except.noConfusion h
  by_cases h3 : parse_not_found doc
  · simp only [h1, h2, h3, Bool.false_eq_true, if_false, ite_false, if_true] at h
    exact Except.noConfusion h
  simp only [h1, h2, h3, Bool.false_eq_true, if_false, ite_false] at h
  rcases hm : (selectAll isTimelineItem (stripQuotes doc)).mapM parse_tweet with em | ts' <;>
    simp only [hm, bind, Except.bind] at h
  · exact Except.noConfusion h
  · have := Except.ok.inj h
    exact congrArg (fun p => Except.ok p.1) this

/-- Every link of a successfully extracted post is the href of an `a`
element in the post's subtree (and is not site-relative). -/
theorem parse_links_mem (el : Node) (lv : List String) (h : parse_links el = .ok lv) :
    ∀ l ∈ lv, ∃ A, A ∈ subNodes el ∧ tagOf A = "a" ∧ attrOf "href" A = some l := by
  intro l hl
  unfold parse_links at h
  rcases hb : (selectSub isTweetContent el).head? with _ | body <;>
    simp only [hb] at h
  · exact Except.noConfusion h
  have hlv := Except.ok.inj h
  rw [← hlv] at hl
  have hfm := List.mem_filter.mp hl
  obtain ⟨A, hA, hattr⟩ := List.mem_filterMap.mp hfm.1
  have hpred : isA A = true := selectSub_pred isA body A hA
  have htag : tagOf A = "a" := by
    unfold isA at hpred
    exact eq_of_beq hpred
  have hbodymem : body ∈ subNodes el :=
    selectSub_subNodes isTweetContent el body (head?_mem _ body hb)
  have hAmem : A ∈ subNodes el :=
    subNodes_trans el body A hbodymem (selectSub_subNodes isA body A hA)
  exact ⟨A, hAmem, htag, hattr⟩

/-- Every image URL of an extracted post is the media-CDN rewriting of the
href of an `a` element in the post's subtree. -/
theorem parse_images_mem (el : Node) :
    ∀ img ∈ parse_tweet_images el, ∃ A link, A ∈ subNodes el ∧ tagOf A = "a" ∧
      attrOf "href" A = some link ∧
      (imageCapture link).map (fun u => "https://pbs.twimg.com/media/" ++ u) = some img := by
  intro img himg
  unfold parse_tweet_images at himg
  obtain ⟨A, hA, hattr⟩ := List.mem_filterMap.mp himg
  obtain ⟨hAmem, hpd⟩ := selectDescSub_subNodes isAttachmentImage isStillImageLink el A hA
  have htag : tagOf A = "a" := by
    unfold isStillImageLink at hpd
    exact eq_of_beq (Bool.and_eq_true .. ▸ hpd).1
  rcases hhref : attrOf "href" A with _ | link
  · rw [hhref] at hattr
    exact Option.noConfusion hattr
  · rw [hhref] at hattr
    exact ⟨A, link, hAmem, htag, hhref, hattr⟩

/-- C9 (amended): quote stripping removes every element child of a quote
element that lacks the `quote-link` class, together with its whole subtree,
before extraction; consequently every link of every extracted post — and
the source href of every image — occurs at a position of the original
document that survives the stripping (`keptAHrefs`).  An href occurring
ONLY inside removed quote content never appears.  (Content the stripping
retains — the quote's permalink `quote-link` subtree, the quote element
itself and its direct text children — may still contribute, which is what
the counterexample exhibits.) -/
theorem c9_quote_stripping (doc : Node) (tweets : List Tweet) (c : NitterCursor)
    (h : parse_nitter_html doc = .ok (tweets, c)) (t : Tweet) (ht : t ∈ tweets) :
    (∀ l ∈ t.links, l ∈ keptAHrefs false doc) ∧
    (∀ img ∈ t.images, ∃ href, href ∈ keptAHrefs false doc ∧
        (imageCapture href).map (fun u => "https://pbs.twimg.com/media/" ++ u) = some img) := by
  have hmapM := parse_nitter_html_tweets doc tweets c h
  obtain ⟨el, hel, hok⟩ := mapM_ok_mem _ tweets hmapM t ht
  obtain ⟨hlinks, himgs⟩ := parse_tweet_ok_fields el t hok
  have helsub : el ∈ subNodes (stripQuotes doc) :=
    selectAll_subNodes isTimelineItem (stripQuotes doc) el hel
  constructor
  · intro l hl
    obtain ⟨A, hA, htagA, hattrA⟩ := parse_links_mem el t.links hlinks l hl
    have hAsub : A ∈ subNodes (stripQuotes doc) :=
      subNodes_trans (stripQuotes doc) el A helsub hA
    exact aHrefs_strip_kept doc l
      (subNodes_aHrefs (stripQuotes doc) A l hAsub htagA hattrA)
  · intro img himg
    rw [himgs] at himg
    obtain ⟨A, link, hA, htagA, hattrA, hcap⟩ := parse_images_mem el img himg
    have hAsub : A ∈ subNodes (stripQuotes doc) :=
      subNodes_trans (stripQuotes doc) el A helsub hA
    exact ⟨link, aHrefs_strip_kept doc link
      (subNodes_aHrefs (stripQuotes doc) A link hAsub htagA hattrA), hcap⟩

/-- Fixture: a timeline page with one post whose body embeds a quote; the
quote's permalink (`a.quote-link`) carries an ABSOLUTE href, and the quoted
body holds a further link. -/
def c9doc : Node :=
  .element "html" [] [] [
    .element "body" [] [] [
      .element "div" ["timeline-item"] [] [
        .element "a" ["fullname"] [("title", "Alice")] [],
        .element "span" ["tweet-date"] [] [
          .element "a" [] [("href", "/alice/status/123"),
            ("title", "Jan 5, 2021 · 3:04 PM UTC")] []],
        .element "div" ["tweet-content"] [] [
          .text "hello ",
          .element "a" [] [("href", "https://example.com/page")] [.text "link"],
          .element "div" ["quote"] [] [
            .element "a" ["quote-link"] [("href", "https://evil.example/x")] [],
            .element "div" ["quote-text"] [] [
              .element "a" [] [("href", "https://quoted.example/y")] [.text "q"]]]]]]]

/-- The single tweet `parse_nitter_html` extracts from `c9doc`. -/
def c9tweet : Tweet :=
  { id := 123, id_str := "123", created_at := "Tue, 05 Jan 2021 15:04:00 +0000",
    created_at_ts := 1609859040,
    user := { full_name := "Alice", screen_name := "alice" },
    full_text := "hello link",
    images := [], video := none,
    links := ["https://example.com/page", "https://evil.example/x"],
    retweet := false, reply := false, quote := true, pinned := false,
    stats := ⟨0, 0, 0, 0⟩ }

/-- C9 counterexample: the claim says the extracted post's links exclude
every href that occurs only inside quoted content embedded in the post.  In
`c9doc` the href "https://evil.example/x" occurs ONLY inside the embedded
quote (it is absent from `hrefsOutsideQuotes`, the spec-side reading of
"outside quoted content"), yet it appears in the extracted post's links:
quote stripping deliberately retains the quote's permalink subtree, and its
href is not site-relative, so the leading-slash filter does not drop it. -/
theorem c9_counterexample :
    parse_nitter_html c9doc = .ok ([c9tweet], .End) ∧
    "https://evil.example/x" ∈ c9tweet.links ∧
    "https://evil.example/x" ∉ hrefsOutsideQuotes false c9doc := by
  refine ⟨by rfl, by decide, by decide⟩

/-- C9 witness: the amended theorem applied to `c9doc` — every link of the
extracted post occurs at a kept position of the original document. -/
theorem c9_quote_stripping_witness :
    parse_nitter_html c9doc = .ok ([c9tweet], .End) ∧
    (∀ l ∈ c9tweet.links, l ∈ keptAHrefs false c9doc) := by
  have hparse : parse_nitter_html c9doc = .ok ([c9tweet], .End) := by rfl
  refine ⟨hparse, ?_⟩
  intro l hl
  exact (c9_quote_stripping c9doc [c9tweet] .End hparse c9tweet
    (List.mem_singleton.mpr rfl)).1 l hl

end NScrape
